import Mathlib

/-!
Verification of the tomoscan repository's step-sequencing plans and laser
completion broker.

The repository consists of three bluesky/ophyd setup scripts:
  * `ophyd_hardware_setup.py` — `wait_for_value`, `multi_scan`, `passive_scan`
  * `ophyd_inter_setup.py`    — `wait_for_value`, `pulse_sync`, `passive_scan`
  * `ophyd_laser_test.py`     — `EPACLaser` (trigger / pulse-id callback),
    `wait_for_value`, `multi_scan`, `passive_scan`

The bluesky plans are Python generators that yield command messages to a run
engine.  We embed each plan as a pure function that produces the list of
emitted messages together with an optional error (the exception, if any, that
escapes the generator).  Numeric values (motor positions, poll intervals,
timeouts) are modelled as rationals `ℚ` standing in for Python floats; machine
signal values are modelled as `Int`.

Interaction with the outside world (signal reads inside `wait_for_value`,
motion success or failure of `mv`) is supplied by explicit environments: a
`WaitEnv` lists the successive observations one `wait_for_value` call makes,
and a `StepEnv` packages the per-step environment of one loop iteration.
-/

/-- One command message emitted by a plan, mirroring the bluesky plan stubs
used by the source (`bps.stage`, `bps.unstage`, `bps.open_run`,
`bps.close_run`, `bps.checkpoint`, `mv`, `bps.sleep`, `signal.get()`
observations, `signal.put()` writes, `bps.trigger_and_read`).  Devices and
signals are identified by natural numbers. -/
inductive Msg where
  | stage (d : Nat)
  | unstage (d : Nat)
  | openRun
  | closeRun
  | checkpoint
  | mv (motor : Nat) (pos : ℚ)
  | sleepFor (t : ℚ)
  | readSig (sig : Nat) (v : Int)
  | writeSig (sig : Nat) (v : Int)
  | triggerAndRead (devs : List Nat)
deriving DecidableEq, Repr

/-- An error escaping a plan generator: `TimeoutError` raised by
`wait_for_value` (carrying the signal, the target value and the timeout, as
the Python message does), a motor motion failure, Python's
`ZeroDivisionError` from `(stop - start) / (steps - 1)`, and `stuck` for a
modelling environment that ends before the plan does. -/
inductive PErr where
  | timeoutErr (sig : Nat) (target : Int) (timeout : ℚ)
  | motionFailure
  | zeroDivisionError
  | stuck
deriving DecidableEq, Repr

/-- Result of running (a fragment of) a plan: the emitted message trace and
the error that escaped, if any. -/
abbrev PRes := List Msg × Option PErr

/-- Emit a single message and succeed. -/
def emit (m : Msg) : PRes := ([m], none)

/-- Sequential composition of plan fragments: if the first fragment raises,
the second never runs (generator semantics of `yield from` followed by more
code). -/
def pseq (a b : PRes) : PRes :=
  match a.2 with
  | some _ => a
  | none => (a.1 ++ b.1, b.2)

/-- Environment of one `wait_for_value` call: `v0` is the result of the
initial `signal.get()`; each element of `rest` supplies, for one loop
iteration, whether `ttime.time() > expiration_time` held at the
post-`sleep` check, and the value the subsequent `signal.get()` returns. -/
structure WaitEnv where
  v0 : Int
  rest : List (Bool × Int)
deriving DecidableEq, Repr

/-- The `while current_value != value` loop of `wait_for_value` (identical in
all three source files): if the current value equals the target the loop
exits; otherwise it sleeps for `poll`, raises `TimeoutError` if past the
deadline, and only otherwise re-reads the signal and continues. -/
def waitLoop (sig : Nat) (target : Int) (poll tmo : ℚ) :
    Int → List (Bool × Int) → PRes
  | cur, [] =>
    if cur = target then ([], none) else ([], some .stuck)
  | cur, (late, v) :: rest =>
    if cur = target then ([], none)
    else if late then
      ([.sleepFor poll], some (.timeoutErr sig target tmo))
    else
      let r := waitLoop sig target poll tmo v rest
      (.sleepFor poll :: .readSig sig v :: r.1, r.2)

/-- `wait_for_value(signal, value, poll_time, timeout)` from the source: one
initial read, then the polling loop. -/
def wait_for_value (sig : Nat) (target : Int) (poll tmo : ℚ)
    (env : WaitEnv) : PRes :=
  let r := waitLoop sig target poll tmo env.v0 env.rest
  (.readSig sig env.v0 :: r.1, r.2)

/-- The polling loop as the claim words it ("suspend for poll_interval,
re-read the signal, and only then fail with a Timeout ... if now exceeds the
deadline"): the re-read happens before the deadline check, so a timing-out
iteration still performs a final read.  This definition follows the claim's
words, for comparison against `wait_for_value`, which follows the source. -/
def waitLoopClaimed (sig : Nat) (target : Int) (poll tmo : ℚ) :
    Int → List (Bool × Int) → PRes
  | cur, [] =>
    if cur = target then ([], none) else ([], some .stuck)
  | cur, (late, v) :: rest =>
    if cur = target then ([], none)
    else if late then
      ([.sleepFor poll, .readSig sig v], some (.timeoutErr sig target tmo))
    else
      let r := waitLoopClaimed sig target poll tmo v rest
      (.sleepFor poll :: .readSig sig v :: r.1, r.2)

/-- `wait_for_value` as the claim states its algorithm (see
`waitLoopClaimed`). -/
def wait_for_value_claimed (sig : Nat) (target : Int) (poll tmo : ℚ)
    (env : WaitEnv) : PRes :=
  let r := waitLoopClaimed sig target poll tmo env.v0 env.rest
  (.readSig sig env.v0 :: r.1, r.2)

/-- `mv(motor, pos)`: the move command is issued; the environment's `ok` flag
says whether the motion completes or fails. -/
def mvCmd (motor : Nat) (pos : ℚ) (ok : Bool) : PRes :=
  if ok then ([.mv motor pos], none)
  else ([.mv motor pos], some .motionFailure)

/-- `for det in detectors: yield from bps.stage(det)`. -/
def stageAll (dets : List Nat) : PRes := (dets.map Msg.stage, none)

/-- `for det in detectors: yield from bps.unstage(det)`. -/
def unstageAll (dets : List Nat) : PRes := (dets.map Msg.unstage, none)

/-- `for i in range(n): yield from body(i)` — runs `body 0`, …, `body (n-1)`
in order, stopping at the first error. -/
def loopSteps (body : Nat → PRes) : Nat → PRes
  | 0 => ([], none)
  | n + 1 => pseq (loopSteps body n) (body n)

/-- Per-step environment for one loop iteration of a scan plan: whether the
step's motor move succeeds, and the observation environments of the (up to
two) `wait_for_value` calls the step makes. -/
structure StepEnv where
  mvOk : Bool
  wA : WaitEnv
  wB : WaitEnv
deriving DecidableEq, Repr

/-- Loop body of `pulse_sync` (ophyd_inter_setup.py lines 82–89): checkpoint,
move, wait for the laser power to read 0, wait for it to read 1, then one
`trigger_and_read(list(detectors) + [motor] + [laser])`. -/
def pulseSyncStep (dets : List Nat) (motorD laserD powerSig : Nat)
    (pos : ℚ) (se : StepEnv) : PRes :=
  pseq (emit .checkpoint)
  (pseq (mvCmd motorD pos se.mvOk)
  (pseq (wait_for_value powerSig 0 (1/100) 10 se.wA)
  (pseq (wait_for_value powerSig 1 (1/1000) 10 se.wB)
  (emit (.triggerAndRead (dets ++ [motorD] ++ [laserD]))))))

/-- `pulse_sync(detectors, motor, laser, start, stop, steps)` from
ophyd_inter_setup.py lines 75–93.  Python evaluates
`(stop - start) / (steps - 1)` on the generator's first advance, raising
`ZeroDivisionError` when `steps == 1` before anything is emitted; we model
that division over `ℚ` with an explicit zero-divisor guard. -/
def pulse_sync (dets : List Nat) (motorD laserD powerSig : Nat)
    (start stop : ℚ) (steps : Nat) (env : Nat → StepEnv) : PRes :=
  if steps = 1 then ([], some .zeroDivisionError)
  else
    let step_size := (stop - start) / ((steps : ℚ) - 1)
    pseq (stageAll dets)
    (pseq (emit .openRun)
    (pseq (loopSteps
      (fun i => pulseSyncStep dets motorD laserD powerSig
        (start + (i : ℚ) * step_size) (env i)) steps)
    (pseq (emit .closeRun)
    (unstageAll dets))))

/-- `for j in range(repeats): yield from bps.trigger_and_read(devs)`. -/
def repeatReads (devs : List Nat) : Nat → PRes
  | 0 => ([], none)
  | n + 1 => pseq (repeatReads devs n) (emit (.triggerAndRead devs))

/-- Loop body of `multi_scan` in ophyd_hardware_setup.py (lines 66–70):
checkpoint, move, then `repeats` trigger-and-reads over
`list(detectors) + [motor] + [laser]`. -/
def multiScanStep (dets : List Nat) (motorD laserD : Nat) (repeats : Nat)
    (pos : ℚ) (se : StepEnv) : PRes :=
  pseq (emit .checkpoint)
  (pseq (mvCmd motorD pos se.mvOk)
  (repeatReads (dets ++ [motorD] ++ [laserD]) repeats))

/-- `multi_scan(detectors, motor, laser, start, stop, steps, repeats)` from
ophyd_hardware_setup.py lines 59–74. -/
def multi_scan (dets : List Nat) (motorD laserD : Nat)
    (start stop : ℚ) (steps repeats : Nat) (env : Nat → StepEnv) : PRes :=
  if steps = 1 then ([], some .zeroDivisionError)
  else
    let step_size := (stop - start) / ((steps : ℚ) - 1)
    pseq (stageAll dets)
    (pseq (emit .openRun)
    (pseq (loopSteps
      (fun i => multiScanStep dets motorD laserD repeats
        (start + (i : ℚ) * step_size) (env i)) steps)
    (pseq (emit .closeRun)
    (unstageAll dets))))

/-- Loop body of `multi_scan` in ophyd_laser_test.py (lines 129–133), which
differs from the hardware-setup version only in the read list order
`list(detectors) + [laser] + [motor]`. -/
def multiScanStepLaser (dets : List Nat) (motorD laserD : Nat)
    (repeats : Nat) (pos : ℚ) (se : StepEnv) : PRes :=
  pseq (emit .checkpoint)
  (pseq (mvCmd motorD pos se.mvOk)
  (repeatReads (dets ++ [laserD] ++ [motorD]) repeats))

/-- `multi_scan(...)` from ophyd_laser_test.py lines 122–137. -/
def multi_scan_laser (dets : List Nat) (motorD laserD : Nat)
    (start stop : ℚ) (steps repeats : Nat) (env : Nat → StepEnv) : PRes :=
  if steps = 1 then ([], some .zeroDivisionError)
  else
    let step_size := (stop - start) / ((steps : ℚ) - 1)
    pseq (stageAll dets)
    (pseq (emit .openRun)
    (pseq (loopSteps
      (fun i => multiScanStepLaser dets motorD laserD repeats
        (start + (i : ℚ) * step_size) (env i)) steps)
    (pseq (emit .closeRun)
    (unstageAll dets))))

/-- Loop body of `passive_scan` (identical in all three files; e.g.
ophyd_inter_setup.py lines 108–113): move, checkpoint, wait for the detector
status to read 2 ("acquiring"), `trigger_and_read([motor] + [pulse_ID])`,
wait for the status to read 0 ("idle"). -/
def passiveScanStep (motorD pulseIdSig adStatusSig : Nat)
    (pos : ℚ) (se : StepEnv) : PRes :=
  pseq (mvCmd motorD pos se.mvOk)
  (pseq (emit .checkpoint)
  (pseq (wait_for_value adStatusSig 2 (1/1000) 10 se.wA)
  (pseq (emit (.triggerAndRead ([motorD] ++ [pulseIdSig])))
  (wait_for_value adStatusSig 0 (1/1000) 10 se.wB))))

/-- `passive_scan(detectors, motor, start, stop, steps, adStatus, pulse_ID)`
from ophyd_inter_setup.py lines 98–118 (the same function appears verbatim in
the other two files).  Note the source order: initial move, `open_run`,
stage, the step loop, unstage, `close_run`.  `mv0Ok` is the environment flag
for the initial move to the start position. -/
def passive_scan (dets : List Nat) (motorD : Nat) (start stop : ℚ)
    (steps : Nat) (adStatusSig pulseIdSig : Nat) (mv0Ok : Bool)
    (env : Nat → StepEnv) : PRes :=
  if steps = 1 then ([], some .zeroDivisionError)
  else
    let step_size := (stop - start) / ((steps : ℚ) - 1)
    pseq (mvCmd motorD start mv0Ok)
    (pseq (emit .openRun)
    (pseq (stageAll dets)
    (pseq (loopSteps
      (fun i => passiveScanStep motorD pulseIdSig adStatusSig
        (start + (i : ℚ) * step_size) (env i)) steps)
    (pseq (unstageAll dets)
    (emit .closeRun)))))

/-- The ordered sequence of target positions a scan visits:
`start + i * step_size` for `i in range(steps)` with
`step_size = (stop - start) / (steps - 1)`, read off the loop headers of the
scan plans. -/
def scanPositions (start stop : ℚ) (steps : Nat) : List ℚ :=
  (List.range steps).map
    (fun (i : ℕ) => start + (i : ℚ) * ((stop - start) / ((steps : ℚ) - 1)))

/-- The positions of the motor-move commands occurring in a trace, in
order. -/
def mvPositions (l : List Msg) : List ℚ :=
  l.filterMap (fun m => match m with | .mv _ p => some p | _ => none)

/-!
## The EPACLaser completion broker (ophyd_laser_test.py lines 47–103)

`EPACLaser.trigger()` creates `DeviceStatus(self, timeout=2.0,
settle_time=self.pulse_id_delay)`, appends it to `__pending_status_list`
under `__pending_status_lock`, and returns it.  `__pulse_id_cb` (subscribed
to the pulse-id signal) swaps the list for an empty one under the lock and
calls `set_finished()` on each drained status outside the lock.

We model the device state explicitly.  `pending` mirrors
`__pending_status_list`; `resolved` is the observation log of `set_finished`
calls made by the callback, in order; `created` numbers statuses in creation
order; `now` is a model clock.  Because the lock makes every registry access
atomic, the possible concurrent histories are exactly the sequentially
consistent interleavings of the three atomic events below (`LEvent`), so we
reason over event traces.
-/

/-- The `DeviceStatus` created by `EPACLaser.trigger`: its creation index,
creation time, `timeout` argument and `settle_time` argument. -/
structure LaserStatus where
  sid : Nat
  ctime : ℚ
  timeout : ℚ
  settle : ℚ
deriving DecidableEq, Repr

/-- Model state of one `EPACLaser` device (see the section comment). -/
structure EPACLaserState where
  pulse_id_delay : ℚ
  pending : List LaserStatus
  resolved : List LaserStatus
  created : Nat
  now : ℚ
deriving DecidableEq, Repr

/-- `EPACLaser.trigger` (ophyd_laser_test.py lines 97–103): build a status
with `timeout=2.0` and `settle_time=self.pulse_id_delay`, append it to the
pending list under the lock, and return it immediately. -/
def EPACLaser.trigger (s : EPACLaserState) : LaserStatus × EPACLaserState :=
  let st : LaserStatus := ⟨s.created, s.now, 2, s.pulse_id_delay⟩
  (st, { s with pending := s.pending ++ [st], created := s.created + 1 })

/-- `EPACLaser.__pulse_id_cb` (ophyd_laser_test.py lines 90–95): under the
lock, swap the pending list for `[]`; then call `set_finished()` on every
drained status, in list order (recorded by appending to `resolved`). -/
def EPACLaser.pulse_id_cb (s : EPACLaserState) : EPACLaserState :=
  { s with pending := [], resolved := s.resolved ++ s.pending }

/-- Atomic events of the broker's concurrent history: a `trigger()` call, a
pulse-id callback invocation, and the passage of `dt` time units (during
which nothing in the source touches the registry — in particular, a status
timing out does not remove it). -/
inductive LEvent where
  | triggerEv
  | pulseEv
  | tickEv (dt : ℚ)
deriving DecidableEq, Repr

/-- One event's effect on the device state. -/
def lstep (s : EPACLaserState) : LEvent → EPACLaserState
  | .triggerEv => (EPACLaser.trigger s).2
  | .pulseEv => EPACLaser.pulse_id_cb s
  | .tickEv dt => { s with now := s.now + dt }

/-- Initial state of an `EPACLaser` constructed with
`pulse_id_delay = d`: empty registry, nothing resolved, clock at 0. -/
def initL (d : ℚ) : EPACLaserState :=
  { pulse_id_delay := d, pending := [], resolved := [], created := 0, now := 0 }

/-- Run an event trace from the initial state. -/
def runL (d : ℚ) (t : List LEvent) : EPACLaserState :=
  t.foldl lstep (initL d)

/-- Number of `trigger()` calls in an event trace. -/
def triggerCount : List LEvent → Nat
  | [] => 0
  | .triggerEv :: r => triggerCount r + 1
  | _ :: r => triggerCount r

/-- Classifier for messages a loop body may emit (everything except the
stage/unstage/open/close bracketing commands). -/
def isStepInternal : Msg → Bool
  | .checkpoint => true
  | .mv _ _ => true
  | .sleepFor _ => true
  | .readSig _ _ => true
  | .triggerAndRead _ => true
  | _ => false

/-- Classifier for motor-move messages. -/
def isMv : Msg → Bool
  | .mv _ _ => true
  | _ => false

/-- The step loop of `pulse_sync`, as a named value (identical to the
`loopSteps` application inside `pulse_sync`). -/
def pulseSyncLoop (dets : List Nat) (motorD laserD powerSig : Nat)
    (start stop : ℚ) (steps : Nat) (env : Nat → StepEnv) : PRes :=
  loopSteps (fun i => pulseSyncStep dets motorD laserD powerSig
    (start + (i : ℚ) * ((stop - start) / ((steps : ℚ) - 1))) (env i)) steps

/-- The step loop of `multi_scan` (hardware-setup version). -/
def multiScanLoop (dets : List Nat) (motorD laserD : Nat)
    (start stop : ℚ) (steps repeats : Nat) (env : Nat → StepEnv) : PRes :=
  loopSteps (fun i => multiScanStep dets motorD laserD repeats
    (start + (i : ℚ) * ((stop - start) / ((steps : ℚ) - 1))) (env i)) steps

/-- The step loop of `multi_scan` (laser-test version). -/
def multiScanLaserLoop (dets : List Nat) (motorD laserD : Nat)
    (start stop : ℚ) (steps repeats : Nat) (env : Nat → StepEnv) : PRes :=
  loopSteps (fun i => multiScanStepLaser dets motorD laserD repeats
    (start + (i : ℚ) * ((stop - start) / ((steps : ℚ) - 1))) (env i)) steps

/-- The step loop of `passive_scan`. -/
def passiveScanLoop (motorD pulseIdSig adStatusSig : Nat)
    (start stop : ℚ) (steps : Nat) (env : Nat → StepEnv) : PRes :=
  loopSteps (fun i => passiveScanStep motorD pulseIdSig adStatusSig
    (start + (i : ℚ) * ((stop - start) / ((steps : ℚ) - 1))) (env i)) steps

/-!  ## Helper lemmas about `wait_for_value`  -/

theorem waitLoop_msgs {sig : Nat} {target : Int} {poll tmo : ℚ} :
    ∀ (env : List (Bool × Int)) (cur : Int),
      ∀ m ∈ (waitLoop sig target poll tmo cur env).1,
        m = Msg.sleepFor poll ∨ ∃ v, m = Msg.readSig sig v := by
  intro env
  induction env with
  | nil =>
    intro cur m hm
    rw [waitLoop] at hm
    split at hm <;> simp at hm
  | cons p rest ih =>
    obtain ⟨late, v⟩ := p
    intro cur m hm
    rw [waitLoop] at hm
    split at hm
    · simp at hm
    · split at hm
      · simp only [List.mem_singleton] at hm
        exact Or.inl hm
      · simp only [List.mem_cons] at hm
        rcases hm with rfl | rfl | hm
        · exact Or.inl rfl
        · exact Or.inr ⟨v, rfl⟩
        · exact ih v m hm

theorem wait_for_value_msgs {sig : Nat} {target : Int} {poll tmo : ℚ}
    (env : WaitEnv) :
    ∀ m ∈ (wait_for_value sig target poll tmo env).1,
      m = Msg.sleepFor poll ∨ ∃ v, m = Msg.readSig sig v := by
  intro m hm
  simp only [wait_for_value, List.mem_cons] at hm
  rcases hm with rfl | hm
  · exact Or.inr ⟨env.v0, rfl⟩
  · exact waitLoop_msgs env.rest env.v0 m hm

theorem waitLoop_err_shape {sig : Nat} {target : Int} {poll tmo : ℚ} :
    ∀ (env : List (Bool × Int)) (cur : Int) (e : PErr),
      (waitLoop sig target poll tmo cur env).2 = some e →
        e = PErr.timeoutErr sig target tmo ∨ e = PErr.stuck := by
  intro env
  induction env with
  | nil =>
    intro cur e he
    rw [waitLoop] at he
    split at he
    · simp at he
    · simp only [Option.some.injEq] at he
      exact Or.inr he.symm
  | cons p rest ih =>
    obtain ⟨late, v⟩ := p
    intro cur e he
    rw [waitLoop] at he
    split at he
    · simp at he
    · split at he
      · simp only [Option.some.injEq] at he
        exact Or.inl he.symm
      · exact ih v e he

theorem waitLoop_timeout_last {sig : Nat} {target : Int} {poll tmo : ℚ} :
    ∀ (env : List (Bool × Int)) (cur : Int),
      (waitLoop sig target poll tmo cur env).2
          = some (PErr.timeoutErr sig target tmo) →
        (waitLoop sig target poll tmo cur env).1.getLast?
          = some (Msg.sleepFor poll) := by
  intro env
  induction env with
  | nil =>
    intro cur he
    rw [waitLoop] at he ⊢
    split at he <;> simp_all
  | cons p rest ih =>
    obtain ⟨late, v⟩ := p
    intro cur he
    by_cases hc : cur = target
    · rw [waitLoop] at he
      rw [if_pos hc] at he
      simp at he
    · cases late with
      | true =>
        rw [waitLoop] at he ⊢
        rw [if_neg hc] at he ⊢
        simp
      | false =>
        rw [waitLoop] at he ⊢
        rw [if_neg hc] at he ⊢
        simp only [Bool.false_eq_true, if_false] at he ⊢
        have htl := ih v he
        cases hx : (waitLoop sig target poll tmo v rest).1 with
        | nil =>
          rw [hx] at htl
          simp at htl
        | cons x xs =>
          rw [hx] at htl
          simpa [List.getLast?_cons_cons] using htl

theorem waitLoop_none_last {sig : Nat} {target : Int} {poll tmo : ℚ} :
    ∀ (env : List (Bool × Int)) (cur : Int),
      (waitLoop sig target poll tmo cur env).2 = none →
        ((waitLoop sig target poll tmo cur env).1 = [] ∧ cur = target) ∨
          (waitLoop sig target poll tmo cur env).1.getLast?
            = some (Msg.readSig sig target) := by
  intro env
  induction env with
  | nil =>
    intro cur he
    rw [waitLoop] at he ⊢
    split at he
    · rename_i hc
      exact Or.inl ⟨by rw [if_pos hc], hc⟩
    · simp at he
  | cons p rest ih =>
    obtain ⟨late, v⟩ := p
    intro cur he
    by_cases hc : cur = target
    · refine Or.inl ⟨?_, hc⟩
      rw [waitLoop, if_pos hc]
    · cases late with
      | true =>
        rw [waitLoop] at he
        rw [if_neg hc] at he
        simp at he
      | false =>
        refine Or.inr ?_
        rw [waitLoop] at he ⊢
        rw [if_neg hc] at he ⊢
        simp only [Bool.false_eq_true, if_false] at he ⊢
        rcases ih v he with ⟨h0, hv⟩ | htl
        · rw [h0]
          subst hv
          rfl
        · cases hx : (waitLoop sig target poll tmo v rest).1 with
          | nil =>
            rw [hx] at htl
            simp at htl
          | cons x xs =>
            rw [hx] at htl
            simpa [List.getLast?_cons_cons] using htl

/-!  ## Helper lemmas about plan composition  -/

theorem pseq_of_none {a b : PRes} (h : a.2 = none) :
    pseq a b = (a.1 ++ b.1, b.2) := by
  simp [pseq, h]

theorem pseq_of_some {a b : PRes} {e : PErr} (h : a.2 = some e) :
    pseq a b = a := by
  simp [pseq, h]

theorem pseq_snd_none {a b : PRes} :
    (pseq a b).2 = none ↔ a.2 = none ∧ b.2 = none := by
  rcases h : a.2 with _ | e
  · simp [pseq_of_none h, h]
  · simp [pseq_of_some h, h]

theorem mem_pseq {a b : PRes} {m : Msg} (h : m ∈ (pseq a b).1) :
    m ∈ a.1 ∨ m ∈ b.1 := by
  rcases ha : a.2 with _ | e
  · rw [pseq_of_none ha] at h
    simpa using (List.mem_append.mp h)
  · rw [pseq_of_some ha] at h
    exact Or.inl h

theorem mem_loopSteps {body : Nat → PRes} {m : Msg} :
    ∀ {n : Nat}, m ∈ (loopSteps body n).1 → ∃ i, i < n ∧ m ∈ (body i).1 := by
  intro n
  induction n with
  | zero => intro h; simp [loopSteps] at h
  | succ k ih =>
    intro h
    rcases mem_pseq h with h1 | h2
    · rcases ih h1 with ⟨i, hi, hm⟩
      exact ⟨i, Nat.lt_succ_of_lt hi, hm⟩
    · exact ⟨k, Nat.lt_succ_self k, h2⟩

theorem loopSteps_none {body : Nat → PRes} :
    ∀ {n : Nat}, (loopSteps body n).2 = none → ∀ i, i < n → (body i).2 = none := by
  intro n
  induction n with
  | zero => intro _ i hi; omega
  | succ k ih =>
    intro h i hi
    rw [loopSteps, pseq_snd_none] at h
    rcases Nat.lt_succ_iff_lt_or_eq.mp hi with hlt | rfl
    · exact ih h.1 i hlt
    · exact h.2

theorem loopSteps_trace_of_none {body : Nat → PRes} :
    ∀ {n : Nat}, (loopSteps body n).2 = none →
      (loopSteps body n).1 = ((List.range n).map (fun i => (body i).1)).flatten := by
  intro n
  induction n with
  | zero => intro _; simp [loopSteps]
  | succ k ih =>
    intro h
    have h' := (pseq_snd_none.mp (by simpa [loopSteps] using h))
    rw [loopSteps, pseq_of_none h'.1]
    simp [List.range_succ, ih h'.1]

theorem mvCmd_trace (motor : Nat) (pos : ℚ) (ok : Bool) :
    (mvCmd motor pos ok).1 = [Msg.mv motor pos] := by
  cases ok <;> simp [mvCmd]

theorem mem_repeatReads {devs : List Nat} {m : Msg} :
    ∀ {n : Nat}, m ∈ (repeatReads devs n).1 → m = Msg.triggerAndRead devs := by
  intro n
  induction n with
  | zero => intro h; simp [repeatReads] at h
  | succ k ih =>
    intro h
    rcases mem_pseq h with h1 | h2
    · exact ih h1
    · simpa [emit] using h2

theorem pulseSyncStep_msgs (dets : List Nat) (motorD laserD powerSig : Nat)
    (pos : ℚ) (se : StepEnv) :
    ∀ m ∈ (pulseSyncStep dets motorD laserD powerSig pos se).1,
      isStepInternal m = true := by
  intro m hm
  simp only [pulseSyncStep] at hm
  rcases mem_pseq hm with h | hm
  · simp only [emit, List.mem_singleton] at h; subst h; rfl
  rcases mem_pseq hm with h | hm
  · rw [mvCmd_trace] at h
    simp only [List.mem_singleton] at h; subst h; rfl
  rcases mem_pseq hm with h | hm
  · rcases wait_for_value_msgs _ m h with rfl | ⟨v, rfl⟩ <;> rfl
  rcases mem_pseq hm with h | hm
  · rcases wait_for_value_msgs _ m h with rfl | ⟨v, rfl⟩ <;> rfl
  · simp only [emit, List.mem_singleton] at hm; subst hm; rfl

theorem multiScanStep_msgs (dets : List Nat) (motorD laserD : Nat)
    (repeats : Nat) (pos : ℚ) (se : StepEnv) :
    ∀ m ∈ (multiScanStep dets motorD laserD repeats pos se).1,
      isStepInternal m = true := by
  intro m hm
  simp only [multiScanStep] at hm
  rcases mem_pseq hm with h | hm
  · simp only [emit, List.mem_singleton] at h; subst h; rfl
  rcases mem_pseq hm with h | hm
  · rw [mvCmd_trace] at h
    simp only [List.mem_singleton] at h; subst h; rfl
  · rw [mem_repeatReads hm]; rfl

theorem multiScanStepLaser_msgs (dets : List Nat) (motorD laserD : Nat)
    (repeats : Nat) (pos : ℚ) (se : StepEnv) :
    ∀ m ∈ (multiScanStepLaser dets motorD laserD repeats pos se).1,
      isStepInternal m = true := by
  intro m hm
  simp only [multiScanStepLaser] at hm
  rcases mem_pseq hm with h | hm
  · simp only [emit, List.mem_singleton] at h; subst h; rfl
  rcases mem_pseq hm with h | hm
  · rw [mvCmd_trace] at h
    simp only [List.mem_singleton] at h; subst h; rfl
  · rw [mem_repeatReads hm]; rfl

theorem passiveScanStep_msgs (motorD pulseIdSig adStatusSig : Nat)
    (pos : ℚ) (se : StepEnv) :
    ∀ m ∈ (passiveScanStep motorD pulseIdSig adStatusSig pos se).1,
      isStepInternal m = true := by
  intro m hm
  simp only [passiveScanStep] at hm
  rcases mem_pseq hm with h | hm
  · rw [mvCmd_trace] at h
    simp only [List.mem_singleton] at h; subst h; rfl
  rcases mem_pseq hm with h | hm
  · simp only [emit, List.mem_singleton] at h; subst h; rfl
  rcases mem_pseq hm with h | hm
  · rcases wait_for_value_msgs _ m h with rfl | ⟨v, rfl⟩ <;> rfl
  rcases mem_pseq hm with h | hm
  · simp only [emit, List.mem_singleton] at h; subst h; rfl
  · rcases wait_for_value_msgs _ m hm with rfl | ⟨v, rfl⟩ <;> rfl

theorem count_eq_zero_of_internal {l : List Msg} {a : Msg}
    (h : ∀ m ∈ l, isStepInternal m = true) (ha : isStepInternal a = false) :
    l.count a = 0 :=
  List.count_eq_zero.mpr (fun hm => by rw [h a hm] at ha; cases ha)

/-- Shape of the `multi_scan`/`pulse_sync` plan skeleton
(stage; open; loop; close; unstage), by cases on whether the loop raised. -/
theorem plan_shape (S O L C U : PRes) (hS : S.2 = none) (hO : O.2 = none)
    (hC : C.2 = none) (hU : U.2 = none) :
    (L.2 = none →
      pseq S (pseq O (pseq L (pseq C U))) =
        (S.1 ++ O.1 ++ L.1 ++ C.1 ++ U.1, none)) ∧
    (∀ e, L.2 = some e →
      pseq S (pseq O (pseq L (pseq C U))) = (S.1 ++ O.1 ++ L.1, some e)) := by
  constructor
  · intro hL
    rw [pseq_of_none hC, pseq_of_none hL, pseq_of_none hO, pseq_of_none hS]
    simp [hU, List.append_assoc]
  · intro e hL
    rw [pseq_of_some hL, pseq_of_none hO, pseq_of_none hS]
    simp [hL, List.append_assoc]

/-- Shape of the `passive_scan` plan skeleton (initial move; open; stage;
loop; unstage; close), by cases on the initial move and the loop. -/
theorem plan_shape_passive (M O S L U C : PRes) (hO : O.2 = none)
    (hS : S.2 = none) (hU : U.2 = none) (hC : C.2 = none) :
    (∀ e, M.2 = some e →
      pseq M (pseq O (pseq S (pseq L (pseq U C)))) = M) ∧
    (M.2 = none → L.2 = none →
      pseq M (pseq O (pseq S (pseq L (pseq U C)))) =
        (M.1 ++ O.1 ++ S.1 ++ L.1 ++ U.1 ++ C.1, none)) ∧
    (∀ e, M.2 = none → L.2 = some e →
      pseq M (pseq O (pseq S (pseq L (pseq U C)))) =
        (M.1 ++ O.1 ++ S.1 ++ L.1, some e)) := by
  refine ⟨fun e hM => pseq_of_some hM, ?_, ?_⟩
  · intro hM hL
    rw [pseq_of_none hU, pseq_of_none hL, pseq_of_none hS, pseq_of_none hO,
      pseq_of_none hM]
    simp [hC, List.append_assoc]
  · intro e hM hL
    rw [pseq_of_some hL, pseq_of_none hS, pseq_of_none hO, pseq_of_none hM]
    simp [hL, List.append_assoc]

theorem pulse_sync_eq (dets : List Nat) (motorD laserD powerSig : Nat)
    (start stop : ℚ) (steps : Nat) (env : Nat → StepEnv) (hs : steps ≠ 1) :
    pulse_sync dets motorD laserD powerSig start stop steps env =
      pseq (stageAll dets)
      (pseq (emit Msg.openRun)
      (pseq (pulseSyncLoop dets motorD laserD powerSig start stop steps env)
      (pseq (emit Msg.closeRun)
      (unstageAll dets)))) := by
  simp only [pulse_sync, pulseSyncLoop]
  rw [if_neg hs]

theorem multi_scan_eq (dets : List Nat) (motorD laserD : Nat)
    (start stop : ℚ) (steps repeats : Nat) (env : Nat → StepEnv)
    (hs : steps ≠ 1) :
    multi_scan dets motorD laserD start stop steps repeats env =
      pseq (stageAll dets)
      (pseq (emit Msg.openRun)
      (pseq (multiScanLoop dets motorD laserD start stop steps repeats env)
      (pseq (emit Msg.closeRun)
      (unstageAll dets)))) := by
  simp only [multi_scan, multiScanLoop]
  rw [if_neg hs]

theorem multi_scan_laser_eq (dets : List Nat) (motorD laserD : Nat)
    (start stop : ℚ) (steps repeats : Nat) (env : Nat → StepEnv)
    (hs : steps ≠ 1) :
    multi_scan_laser dets motorD laserD start stop steps repeats env =
      pseq (stageAll dets)
      (pseq (emit Msg.openRun)
      (pseq (multiScanLaserLoop dets motorD laserD start stop steps repeats env)
      (pseq (emit Msg.closeRun)
      (unstageAll dets)))) := by
  simp only [multi_scan_laser, multiScanLaserLoop]
  rw [if_neg hs]

theorem passive_scan_eq (dets : List Nat) (motorD : Nat) (start stop : ℚ)
    (steps : Nat) (adStatusSig pulseIdSig : Nat) (mv0Ok : Bool)
    (env : Nat → StepEnv) (hs : steps ≠ 1) :
    passive_scan dets motorD start stop steps adStatusSig pulseIdSig mv0Ok env =
      pseq (mvCmd motorD start mv0Ok)
      (pseq (emit Msg.openRun)
      (pseq (stageAll dets)
      (pseq (passiveScanLoop motorD pulseIdSig adStatusSig start stop steps env)
      (pseq (unstageAll dets)
      (emit Msg.closeRun))))) := by
  simp only [passive_scan, passiveScanLoop]
  rw [if_neg hs]

theorem pulseSyncLoop_msgs (dets : List Nat) (motorD laserD powerSig : Nat)
    (start stop : ℚ) (steps : Nat) (env : Nat → StepEnv) :
    ∀ m ∈ (pulseSyncLoop dets motorD laserD powerSig start stop steps env).1,
      isStepInternal m = true := by
  intro m hm
  rcases mem_loopSteps (by simpa [pulseSyncLoop] using hm) with ⟨i, _, hmem⟩
  exact pulseSyncStep_msgs _ _ _ _ _ _ m hmem

theorem multiScanLoop_msgs (dets : List Nat) (motorD laserD : Nat)
    (start stop : ℚ) (steps repeats : Nat) (env : Nat → StepEnv) :
    ∀ m ∈ (multiScanLoop dets motorD laserD start stop steps repeats env).1,
      isStepInternal m = true := by
  intro m hm
  rcases mem_loopSteps (by simpa [multiScanLoop] using hm) with ⟨i, _, hmem⟩
  exact multiScanStep_msgs _ _ _ _ _ _ m hmem

theorem multiScanLaserLoop_msgs (dets : List Nat) (motorD laserD : Nat)
    (start stop : ℚ) (steps repeats : Nat) (env : Nat → StepEnv) :
    ∀ m ∈ (multiScanLaserLoop dets motorD laserD start stop steps repeats env).1,
      isStepInternal m = true := by
  intro m hm
  rcases mem_loopSteps (by simpa [multiScanLaserLoop] using hm) with ⟨i, _, hmem⟩
  exact multiScanStepLaser_msgs _ _ _ _ _ _ m hmem

theorem passiveScanLoop_msgs (motorD pulseIdSig adStatusSig : Nat)
    (start stop : ℚ) (steps : Nat) (env : Nat → StepEnv) :
    ∀ m ∈ (passiveScanLoop motorD pulseIdSig adStatusSig start stop steps env).1,
      isStepInternal m = true := by
  intro m hm
  rcases mem_loopSteps (by simpa [passiveScanLoop] using hm) with ⟨i, _, hmem⟩
  exact passiveScanStep_msgs _ _ _ _ _ m hmem

theorem count_map_stage (dets : List Nat) {a : Msg}
    (h : ∀ d, a ≠ Msg.stage d) : (dets.map Msg.stage).count a = 0 := by
  refine List.count_eq_zero.mpr ?_
  intro ha
  rcases List.mem_map.mp ha with ⟨d, _, hd⟩
  exact h d hd.symm

theorem count_map_unstage (dets : List Nat) {a : Msg}
    (h : ∀ d, a ≠ Msg.unstage d) : (dets.map Msg.unstage).count a = 0 := by
  refine List.count_eq_zero.mpr ?_
  intro ha
  rcases List.mem_map.mp ha with ⟨d, _, hd⟩
  exact h d hd.symm

/-- Claim C10 (confirmed): each scan variant computes
`(stop - start) / (steps - 1)` before emitting any command, so calling any
variant with `steps = 1` raises a division-by-zero error on the first
advance of the generator, before any stage, open_run, or motor-move command
has been emitted: the emitted trace is empty. -/
theorem claim_C10 :
    (∀ (dets : List Nat) (motorD laserD powerSig : Nat) (start stop : ℚ)
        (env : Nat → StepEnv),
      pulse_sync dets motorD laserD powerSig start stop 1 env
        = ([], some PErr.zeroDivisionError)) ∧
    (∀ (dets : List Nat) (motorD laserD : Nat) (start stop : ℚ)
        (repeats : Nat) (env : Nat → StepEnv),
      multi_scan dets motorD laserD start stop 1 repeats env
        = ([], some PErr.zeroDivisionError)) ∧
    (∀ (dets : List Nat) (motorD laserD : Nat) (start stop : ℚ)
        (repeats : Nat) (env : Nat → StepEnv),
      multi_scan_laser dets motorD laserD start stop 1 repeats env
        = ([], some PErr.zeroDivisionError)) ∧
    (∀ (dets : List Nat) (motorD : Nat) (start stop : ℚ)
        (adStatusSig pulseIdSig : Nat) (mv0Ok : Bool) (env : Nat → StepEnv),
      passive_scan dets motorD start stop 1 adStatusSig pulseIdSig mv0Ok env
        = ([], some PErr.zeroDivisionError)) :=
  ⟨fun _ _ _ _ _ _ _ => rfl, fun _ _ _ _ _ _ _ => rfl,
    fun _ _ _ _ _ _ _ => rfl, fun _ _ _ _ _ _ _ _ => rfl⟩

/-- Claim C1 (counterexample): in `pulse_sync` with one staged detector and
an error injected in the per-step loop (the wait-for-power-0 times out at
step 0, after the detector was staged and the run opened), the escaping
trace contains the stage and open_run commands but NO close_run and NO
unstage — contradicting the claim that the variant still emits close_run
and one unstage per staged detector before the error propagates. -/
theorem claim_C1_counterexample :
    (pulse_sync [0] 1 2 3 0 0 2
        (fun _ => ⟨true, ⟨1, [(true, 0)]⟩, ⟨1, []⟩⟩)).2
      = some (PErr.timeoutErr 3 0 10) ∧
    (pulse_sync [0] 1 2 3 0 0 2
        (fun _ => ⟨true, ⟨1, [(true, 0)]⟩, ⟨1, []⟩⟩)).1.count (Msg.stage 0) = 1 ∧
    (pulse_sync [0] 1 2 3 0 0 2
        (fun _ => ⟨true, ⟨1, [(true, 0)]⟩, ⟨1, []⟩⟩)).1.count Msg.openRun = 1 ∧
    (pulse_sync [0] 1 2 3 0 0 2
        (fun _ => ⟨true, ⟨1, [(true, 0)]⟩, ⟨1, []⟩⟩)).1.count Msg.closeRun = 0 ∧
    (pulse_sync [0] 1 2 3 0 0 2
        (fun _ => ⟨true, ⟨1, [(true, 0)]⟩, ⟨1, []⟩⟩)).1.count (Msg.unstage 0) = 0 := by
  decide

/-- Claim C1 as amended: none of the scan variants performs any cleanup when
an error escapes the per-step loop — if a variant's invocation ends in an
error, its emitted trace contains no close_run and no unstage command at
all; the run is left open, staged detectors stay staged, and any cleanup is
left to the external run engine. -/
theorem claim_C1_amended :
    (∀ (dets : List Nat) (motorD laserD powerSig : Nat) (start stop : ℚ)
        (steps : Nat) (env : Nat → StepEnv),
      (pulse_sync dets motorD laserD powerSig start stop steps env).2.isSome
          = true →
        (pulse_sync dets motorD laserD powerSig start stop steps env).1.count
            Msg.closeRun = 0 ∧
        ∀ d : Nat,
          (pulse_sync dets motorD laserD powerSig start stop steps env).1.count
            (Msg.unstage d) = 0) ∧
    (∀ (dets : List Nat) (motorD laserD : Nat) (start stop : ℚ)
        (steps repeats : Nat) (env : Nat → StepEnv),
      (multi_scan dets motorD laserD start stop steps repeats env).2.isSome
          = true →
        (multi_scan dets motorD laserD start stop steps repeats env).1.count
            Msg.closeRun = 0 ∧
        ∀ d : Nat,
          (multi_scan dets motorD laserD start stop steps repeats env).1.count
            (Msg.unstage d) = 0) ∧
    (∀ (dets : List Nat) (motorD laserD : Nat) (start stop : ℚ)
        (steps repeats : Nat) (env : Nat → StepEnv),
      (multi_scan_laser dets motorD laserD start stop steps repeats env).2.isSome
          = true →
        (multi_scan_laser dets motorD laserD start stop steps repeats env).1.count
            Msg.closeRun = 0 ∧
        ∀ d : Nat,
          (multi_scan_laser dets motorD laserD start stop steps repeats env).1.count
            (Msg.unstage d) = 0) ∧
    (∀ (dets : List Nat) (motorD : Nat) (start stop : ℚ) (steps : Nat)
        (adStatusSig pulseIdSig : Nat) (mv0Ok : Bool) (env : Nat → StepEnv),
      (passive_scan dets motorD start stop steps adStatusSig pulseIdSig mv0Ok
          env).2.isSome = true →
        (passive_scan dets motorD start stop steps adStatusSig pulseIdSig mv0Ok
            env).1.count Msg.closeRun = 0 ∧
        ∀ d : Nat,
          (passive_scan dets motorD start stop steps adStatusSig pulseIdSig mv0Ok
            env).1.count (Msg.unstage d) = 0) := by
  refine ⟨?_, ?_, ?_, ?_⟩
  · intro dets motorD laserD powerSig start stop steps env hsome
    by_cases hs : steps = 1
    · subst hs
      simp [pulse_sync]
    · have heq := pulse_sync_eq dets motorD laserD powerSig start stop steps env hs
      rw [heq] at hsome ⊢
      rcases hL : (pulseSyncLoop dets motorD laserD powerSig start stop steps
          env).2 with _ | e
      · rw [(plan_shape _ _ _ _ _ rfl rfl rfl rfl).1 hL] at hsome
        simp at hsome
      · rw [(plan_shape _ _ _ _ _ rfl rfl rfl rfl).2 e hL]
        refine ⟨?_, fun d => ?_⟩
        · simp only [stageAll, emit, List.count_append]
          rw [count_map_stage dets (fun d h => Msg.noConfusion h),
            count_eq_zero_of_internal (pulseSyncLoop_msgs _ _ _ _ _ _ _ _)
              (show isStepInternal Msg.closeRun = false from rfl)]
          simp
        · simp only [stageAll, emit, List.count_append]
          rw [count_map_stage dets (fun d' h => Msg.noConfusion h),
            count_eq_zero_of_internal (pulseSyncLoop_msgs _ _ _ _ _ _ _ _)
              (show isStepInternal (Msg.unstage d) = false from rfl)]
          simp
  · intro dets motorD laserD start stop steps repeats env hsome
    by_cases hs : steps = 1
    · subst hs
      simp [multi_scan]
    · have heq := multi_scan_eq dets motorD laserD start stop steps repeats env hs
      rw [heq] at hsome ⊢
      rcases hL : (multiScanLoop dets motorD laserD start stop steps repeats
          env).2 with _ | e
      · rw [(plan_shape _ _ _ _ _ rfl rfl rfl rfl).1 hL] at hsome
        simp at hsome
      · rw [(plan_shape _ _ _ _ _ rfl rfl rfl rfl).2 e hL]
        refine ⟨?_, fun d => ?_⟩
        · simp only [stageAll, emit, List.count_append]
          rw [count_map_stage dets (fun d h => Msg.noConfusion h),
            count_eq_zero_of_internal (multiScanLoop_msgs _ _ _ _ _ _ _ _)
              (show isStepInternal Msg.closeRun = false from rfl)]
          simp
        · simp only [stageAll, emit, List.count_append]
          rw [count_map_stage dets (fun d' h => Msg.noConfusion h),
            count_eq_zero_of_internal (multiScanLoop_msgs _ _ _ _ _ _ _ _)
              (show isStepInternal (Msg.unstage d) = false from rfl)]
          simp
  · intro dets motorD laserD start stop steps repeats env hsome
    by_cases hs : steps = 1
    · subst hs
      simp [multi_scan_laser]
    · have heq := multi_scan_laser_eq dets motorD laserD start stop steps repeats
        env hs
      rw [heq] at hsome ⊢
      rcases hL : (multiScanLaserLoop dets motorD laserD start stop steps repeats
          env).2 with _ | e
      · rw [(plan_shape _ _ _ _ _ rfl rfl rfl rfl).1 hL] at hsome
        simp at hsome
      · rw [(plan_shape _ _ _ _ _ rfl rfl rfl rfl).2 e hL]
        refine ⟨?_, fun d => ?_⟩
        · simp only [stageAll, emit, List.count_append]
          rw [count_map_stage dets (fun d h => Msg.noConfusion h),
            count_eq_zero_of_internal (multiScanLaserLoop_msgs _ _ _ _ _ _ _ _)
              (show isStepInternal Msg.closeRun = false from rfl)]
          simp
        · simp only [stageAll, emit, List.count_append]
          rw [count_map_stage dets (fun d' h => Msg.noConfusion h),
            count_eq_zero_of_internal (multiScanLaserLoop_msgs _ _ _ _ _ _ _ _)
              (show isStepInternal (Msg.unstage d) = false from rfl)]
          simp
  · intro dets motorD start stop steps adStatusSig pulseIdSig mv0Ok env hsome
    by_cases hs : steps = 1
    · subst hs
      simp [passive_scan]
    · have heq := passive_scan_eq dets motorD start stop steps adStatusSig
        pulseIdSig mv0Ok env hs
      rw [heq] at hsome ⊢
      have shape := plan_shape_passive (mvCmd motorD start mv0Ok)
        (emit Msg.openRun) (stageAll dets)
        (passiveScanLoop motorD pulseIdSig adStatusSig start stop steps env)
        (unstageAll dets) (emit Msg.closeRun) rfl rfl rfl rfl
      rcases hM : (mvCmd motorD start mv0Ok).2 with _ | e0
      · rcases hL : (passiveScanLoop motorD pulseIdSig adStatusSig start stop
            steps env).2 with _ | e
        · rw [shape.2.1 hM hL] at hsome
          simp at hsome
        · rw [shape.2.2 e hM hL]
          refine ⟨?_, fun d => ?_⟩
          · simp only [emit, stageAll, List.count_append, mvCmd_trace]
            rw [count_map_stage dets (fun d h => Msg.noConfusion h),
              count_eq_zero_of_internal (passiveScanLoop_msgs _ _ _ _ _ _ _)
                (show isStepInternal Msg.closeRun = false from rfl)]
            simp
          · simp only [emit, stageAll, List.count_append, mvCmd_trace]
            rw [count_map_stage dets (fun d' h => Msg.noConfusion h),
              count_eq_zero_of_internal (passiveScanLoop_msgs _ _ _ _ _ _ _)
                (show isStepInternal (Msg.unstage d) = false from rfl)]
            simp
      · rw [shape.1 e0 hM]
        rw [mvCmd_trace]
        refine ⟨?_, fun d => ?_⟩ <;> simp

/-- Witness for `claim_C1_amended` at a concrete erroring `pulse_sync`
invocation. -/
theorem claim_C1_amended_witness :
    ((pulse_sync [0] 1 2 3 0 0 2
        (fun _ => ⟨false, ⟨1, [(true, 0)]⟩, ⟨1, []⟩⟩)).2.isSome = true) ∧
    ((pulse_sync [0] 1 2 3 0 0 2
        (fun _ => ⟨false, ⟨1, [(true, 0)]⟩, ⟨1, []⟩⟩)).1.count Msg.closeRun = 0 ∧
      ∀ d : Nat, (pulse_sync [0] 1 2 3 0 0 2
        (fun _ => ⟨false, ⟨1, [(true, 0)]⟩, ⟨1, []⟩⟩)).1.count (Msg.unstage d) = 0) :=
  ⟨by decide, claim_C1_amended.1 [0] 1 2 3 0 0 2 _ (by decide)⟩

/-- Claim C3 (counterexample): in a successful `passive_scan` invocation the
unique `stage` command (index 2) is emitted AFTER `open_run` (index 1), and
the unique `unstage` (index 13) BEFORE `close_run` (index 14) — refuting
"every detector's stage command is emitted strictly before open_run, and
every detector's unstage command is emitted strictly after close_run" for
this variant. -/
theorem claim_C3_counterexample :
    (passive_scan [0] 1 0 0 2 4 5 true
        (fun _ => ⟨true, ⟨2, []⟩, ⟨0, []⟩⟩)).2 = none ∧
    (passive_scan [0] 1 0 0 2 4 5 true
        (fun _ => ⟨true, ⟨2, []⟩, ⟨0, []⟩⟩)).1.count (Msg.stage 0) = 1 ∧
    (passive_scan [0] 1 0 0 2 4 5 true
        (fun _ => ⟨true, ⟨2, []⟩, ⟨0, []⟩⟩)).1.count (Msg.unstage 0) = 1 ∧
    (passive_scan [0] 1 0 0 2 4 5 true
        (fun _ => ⟨true, ⟨2, []⟩, ⟨0, []⟩⟩)).1.indexOf Msg.openRun = 1 ∧
    (passive_scan [0] 1 0 0 2 4 5 true
        (fun _ => ⟨true, ⟨2, []⟩, ⟨0, []⟩⟩)).1.indexOf (Msg.stage 0) = 2 ∧
    (passive_scan [0] 1 0 0 2 4 5 true
        (fun _ => ⟨true, ⟨2, []⟩, ⟨0, []⟩⟩)).1.indexOf (Msg.unstage 0) = 13 ∧
    (passive_scan [0] 1 0 0 2 4 5 true
        (fun _ => ⟨true, ⟨2, []⟩, ⟨0, []⟩⟩)).1.indexOf Msg.closeRun = 14 := by
  decide

/-- Claim C3 as amended: every successful scan invocation emits exactly one
open_run and exactly one close_run; in `multi_scan` (both versions) and
`pulse_sync` all stages precede open_run and all unstages follow close_run,
but in `passive_scan` the stages come right after open_run and the unstages
right before close_run (both inside the run bracket). -/
theorem claim_C3_amended :
    (∀ (dets : List Nat) (motorD laserD powerSig : Nat) (start stop : ℚ)
        (steps : Nat) (env : Nat → StepEnv),
      (pulse_sync dets motorD laserD powerSig start stop steps env).2 = none →
        (pulse_sync dets motorD laserD powerSig start stop steps env).1.count
            Msg.openRun = 1 ∧
        (pulse_sync dets motorD laserD powerSig start stop steps env).1.count
            Msg.closeRun = 1 ∧
        ∃ L : List Msg,
          (pulse_sync dets motorD laserD powerSig start stop steps env).1
              = dets.map Msg.stage ++ [Msg.openRun] ++ L ++ [Msg.closeRun] ++
                dets.map Msg.unstage ∧
          ∀ m ∈ L, isStepInternal m = true) ∧
    (∀ (dets : List Nat) (motorD laserD : Nat) (start stop : ℚ)
        (steps repeats : Nat) (env : Nat → StepEnv),
      (multi_scan dets motorD laserD start stop steps repeats env).2 = none →
        (multi_scan dets motorD laserD start stop steps repeats env).1.count
            Msg.openRun = 1 ∧
        (multi_scan dets motorD laserD start stop steps repeats env).1.count
            Msg.closeRun = 1 ∧
        ∃ L : List Msg,
          (multi_scan dets motorD laserD start stop steps repeats env).1
              = dets.map Msg.stage ++ [Msg.openRun] ++ L ++ [Msg.closeRun] ++
                dets.map Msg.unstage ∧
          ∀ m ∈ L, isStepInternal m = true) ∧
    (∀ (dets : List Nat) (motorD laserD : Nat) (start stop : ℚ)
        (steps repeats : Nat) (env : Nat → StepEnv),
      (multi_scan_laser dets motorD laserD start stop steps repeats env).2 = none →
        (multi_scan_laser dets motorD laserD start stop steps repeats env).1.count
            Msg.openRun = 1 ∧
        (multi_scan_laser dets motorD laserD start stop steps repeats env).1.count
            Msg.closeRun = 1 ∧
        ∃ L : List Msg,
          (multi_scan_laser dets motorD laserD start stop steps repeats env).1
              = dets.map Msg.stage ++ [Msg.openRun] ++ L ++ [Msg.closeRun] ++
                dets.map Msg.unstage ∧
          ∀ m ∈ L, isStepInternal m = true) ∧
    (∀ (dets : List Nat) (motorD : Nat) (start stop : ℚ) (steps : Nat)
        (adStatusSig pulseIdSig : Nat) (mv0Ok : Bool) (env : Nat → StepEnv),
      (passive_scan dets motorD start stop steps adStatusSig pulseIdSig mv0Ok
          env).2 = none →
        (passive_scan dets motorD start stop steps adStatusSig pulseIdSig mv0Ok
            env).1.count Msg.openRun = 1 ∧
        (passive_scan dets motorD start stop steps adStatusSig pulseIdSig mv0Ok
            env).1.count Msg.closeRun = 1 ∧
        ∃ L : List Msg,
          (passive_scan dets motorD start stop steps adStatusSig pulseIdSig mv0Ok
              env).1
              = [Msg.mv motorD start] ++ [Msg.openRun] ++ dets.map Msg.stage ++
                L ++ dets.map Msg.unstage ++ [Msg.closeRun] ∧
          ∀ m ∈ L, isStepInternal m = true) := by
  refine ⟨?_, ?_, ?_, ?_⟩
  · intro dets motorD laserD powerSig start stop steps env hnone
    by_cases hs : steps = 1
    · simp only [pulse_sync, if_pos hs] at hnone
      simp at hnone
    · have heq := pulse_sync_eq dets motorD laserD powerSig start stop steps env hs
      rw [heq] at hnone ⊢
      rcases hL : (pulseSyncLoop dets motorD laserD powerSig start stop steps
          env).2 with _ | e
      · rw [(plan_shape _ _ _ _ _ rfl rfl rfl rfl).1 hL]
        refine ⟨?_, ?_, (pulseSyncLoop dets motorD laserD powerSig start stop
          steps env).1, ?_, pulseSyncLoop_msgs _ _ _ _ _ _ _ _⟩
        · simp only [stageAll, emit, unstageAll, List.count_append]
          rw [count_map_stage dets (fun d h => Msg.noConfusion h),
            count_map_unstage dets (fun d h => Msg.noConfusion h),
            count_eq_zero_of_internal (pulseSyncLoop_msgs _ _ _ _ _ _ _ _)
              (show isStepInternal Msg.openRun = false from rfl)]
          simp
        · simp only [stageAll, emit, unstageAll, List.count_append]
          rw [count_map_stage dets (fun d h => Msg.noConfusion h),
            count_map_unstage dets (fun d h => Msg.noConfusion h),
            count_eq_zero_of_internal (pulseSyncLoop_msgs _ _ _ _ _ _ _ _)
              (show isStepInternal Msg.closeRun = false from rfl)]
          simp
        · simp [stageAll, emit, unstageAll]
      · rw [(plan_shape _ _ _ _ _ rfl rfl rfl rfl).2 e hL] at hnone
        simp at hnone
  · intro dets motorD laserD start stop steps repeats env hnone
    by_cases hs : steps = 1
    · simp only [multi_scan, if_pos hs] at hnone
      simp at hnone
    · have heq := multi_scan_eq dets motorD laserD start stop steps repeats env hs
      rw [heq] at hnone ⊢
      rcases hL : (multiScanLoop dets motorD laserD start stop steps repeats
          env).2 with _ | e
      · rw [(plan_shape _ _ _ _ _ rfl rfl rfl rfl).1 hL]
        refine ⟨?_, ?_, (multiScanLoop dets motorD laserD start stop steps
          repeats env).1, ?_, multiScanLoop_msgs _ _ _ _ _ _ _ _⟩
        · simp only [stageAll, emit, unstageAll, List.count_append]
          rw [count_map_stage dets (fun d h => Msg.noConfusion h),
            count_map_unstage dets (fun d h => Msg.noConfusion h),
            count_eq_zero_of_internal (multiScanLoop_msgs _ _ _ _ _ _ _ _)
              (show isStepInternal Msg.openRun = false from rfl)]
          simp
        · simp only [stageAll, emit, unstageAll, List.count_append]
          rw [count_map_stage dets (fun d h => Msg.noConfusion h),
            count_map_unstage dets (fun d h => Msg.noConfusion h),
            count_eq_zero_of_internal (multiScanLoop_msgs _ _ _ _ _ _ _ _)
              (show isStepInternal Msg.closeRun = false from rfl)]
          simp
        · simp [stageAll, emit, unstageAll]
      · rw [(plan_shape _ _ _ _ _ rfl rfl rfl rfl).2 e hL] at hnone
        simp at hnone
  · intro dets motorD laserD start stop steps repeats env hnone
    by_cases hs : steps = 1
    · simp only [multi_scan_laser, if_pos hs] at hnone
      simp at hnone
    · have heq := multi_scan_laser_eq dets motorD laserD start stop steps repeats
        env hs
      rw [heq] at hnone ⊢
      rcases hL : (multiScanLaserLoop dets motorD laserD start stop steps repeats
          env).2 with _ | e
      · rw [(plan_shape _ _ _ _ _ rfl rfl rfl rfl).1 hL]
        refine ⟨?_, ?_, (multiScanLaserLoop dets motorD laserD start stop steps
          repeats env).1, ?_, multiScanLaserLoop_msgs _ _ _ _ _ _ _ _⟩
        · simp only [stageAll, emit, unstageAll, List.count_append]
          rw [count_map_stage dets (fun d h => Msg.noConfusion h),
            count_map_unstage dets (fun d h => Msg.noConfusion h),
            count_eq_zero_of_internal (multiScanLaserLoop_msgs _ _ _ _ _ _ _ _)
              (show isStepInternal Msg.openRun = false from rfl)]
          simp
        · simp only [stageAll, emit, unstageAll, List.count_append]
          rw [count_map_stage dets (fun d h => Msg.noConfusion h),
            count_map_unstage dets (fun d h => Msg.noConfusion h),
            count_eq_zero_of_internal (multiScanLaserLoop_msgs _ _ _ _ _ _ _ _)
              (show isStepInternal Msg.closeRun = false from rfl)]
          simp
        · simp [stageAll, emit, unstageAll]
      · rw [(plan_shape _ _ _ _ _ rfl rfl rfl rfl).2 e hL] at hnone
        simp at hnone
  · intro dets motorD start stop steps adStatusSig pulseIdSig mv0Ok env hnone
    by_cases hs : steps = 1
    · simp only [passive_scan, if_pos hs] at hnone
      simp at hnone
    · have heq := passive_scan_eq dets motorD start stop steps adStatusSig
        pulseIdSig mv0Ok env hs
      rw [heq] at hnone ⊢
      have shape := plan_shape_passive (mvCmd motorD start mv0Ok)
        (emit Msg.openRun) (stageAll dets)
        (passiveScanLoop motorD pulseIdSig adStatusSig start stop steps env)
        (unstageAll dets) (emit Msg.closeRun) rfl rfl rfl rfl
      rcases hM : (mvCmd motorD start mv0Ok).2 with _ | e0
      · rcases hL : (passiveScanLoop motorD pulseIdSig adStatusSig start stop
            steps env).2 with _ | e
        · rw [shape.2.1 hM hL]
          refine ⟨?_, ?_, (passiveScanLoop motorD pulseIdSig adStatusSig start
            stop steps env).1, ?_, passiveScanLoop_msgs _ _ _ _ _ _ _⟩
          · simp only [stageAll, emit, unstageAll, mvCmd_trace, List.count_append]
            rw [count_map_stage dets (fun d h => Msg.noConfusion h),
              count_map_unstage dets (fun d h => Msg.noConfusion h),
              count_eq_zero_of_internal (passiveScanLoop_msgs _ _ _ _ _ _ _)
                (show isStepInternal Msg.openRun = false from rfl)]
            simp
          · simp only [stageAll, emit, unstageAll, mvCmd_trace, List.count_append]
            rw [count_map_stage dets (fun d h => Msg.noConfusion h),
              count_map_unstage dets (fun d h => Msg.noConfusion h),
              count_eq_zero_of_internal (passiveScanLoop_msgs _ _ _ _ _ _ _)
                (show isStepInternal Msg.closeRun = false from rfl)]
            simp
          · simp [stageAll, emit, unstageAll, mvCmd_trace]
        · rw [shape.2.2 e hM hL] at hnone
          simp at hnone
      · rw [shape.1 e0 hM] at hnone
        rw [hM] at hnone
        simp at hnone

/-- Witness for `claim_C3_amended` at a concrete successful `pulse_sync`
invocation. -/
theorem claim_C3_amended_witness :
    ((pulse_sync [0] 1 2 3 0 0 2
        (fun _ => ⟨true, ⟨0, []⟩, ⟨1, []⟩⟩)).2 = none) ∧
    ((pulse_sync [0] 1 2 3 0 0 2
        (fun _ => ⟨true, ⟨0, []⟩, ⟨1, []⟩⟩)).1.count Msg.openRun = 1 ∧
      (pulse_sync [0] 1 2 3 0 0 2
        (fun _ => ⟨true, ⟨0, []⟩, ⟨1, []⟩⟩)).1.count Msg.closeRun = 1 ∧
      ∃ L : List Msg,
        (pulse_sync [0] 1 2 3 0 0 2
            (fun _ => ⟨true, ⟨0, []⟩, ⟨1, []⟩⟩)).1
            = [0].map Msg.stage ++ [Msg.openRun] ++ L ++ [Msg.closeRun] ++
              [0].map Msg.unstage ∧
        ∀ m ∈ L, isStepInternal m = true) :=
  ⟨by decide, claim_C3_amended.1 [0] 1 2 3 0 0 2 _ (by decide)⟩

/-- Claim C7 (counterexample): in a successful `passive_scan` invocation
(steps = 2) the motor moves sit at trace indices 0, 3 and 8 (`isMv` map
below) while the only two checkpoints sit at indices 4 and 9 — each
iteration's move is emitted BEFORE its checkpoint, refuting "within each
iteration of the per-step loop, the checkpoint command is emitted before the
motor-move command" for this variant. -/
theorem claim_C7_counterexample :
    ((passive_scan [0] 1 0 0 2 4 5 true
        (fun _ => ⟨true, ⟨2, []⟩, ⟨0, []⟩⟩)).1.map isMv
      = [true, false, false, true, false, false, false, false, true, false,
          false, false, false, false, false]) ∧
    (passive_scan [0] 1 0 0 2 4 5 true
        (fun _ => ⟨true, ⟨2, []⟩, ⟨0, []⟩⟩)).1[4]? = some Msg.checkpoint ∧
    (passive_scan [0] 1 0 0 2 4 5 true
        (fun _ => ⟨true, ⟨2, []⟩, ⟨0, []⟩⟩)).1[9]? = some Msg.checkpoint ∧
    (passive_scan [0] 1 0 0 2 4 5 true
        (fun _ => ⟨true, ⟨2, []⟩, ⟨0, []⟩⟩)).1.count Msg.checkpoint = 2 ∧
    (passive_scan [0] 1 0 0 2 4 5 true
        (fun _ => ⟨true, ⟨2, []⟩, ⟨0, []⟩⟩)).2 = none := by
  decide

/-- Claim C7 as amended: in `multi_scan` (both versions) and `pulse_sync`
each loop iteration emits the checkpoint first and then the motor move, but
in `passive_scan` each iteration emits the motor move first and the
checkpoint second. -/
theorem claim_C7_amended :
    (∀ (dets : List Nat) (motorD laserD powerSig : Nat) (pos : ℚ)
        (se : StepEnv),
      (pulseSyncStep dets motorD laserD powerSig pos se).1.take 2
        = [Msg.checkpoint, Msg.mv motorD pos]) ∧
    (∀ (dets : List Nat) (motorD laserD : Nat) (repeats : Nat) (pos : ℚ)
        (se : StepEnv),
      (multiScanStep dets motorD laserD repeats pos se).1.take 2
        = [Msg.checkpoint, Msg.mv motorD pos]) ∧
    (∀ (dets : List Nat) (motorD laserD : Nat) (repeats : Nat) (pos : ℚ)
        (se : StepEnv),
      (multiScanStepLaser dets motorD laserD repeats pos se).1.take 2
        = [Msg.checkpoint, Msg.mv motorD pos]) ∧
    (∀ (motorD pulseIdSig adStatusSig : Nat) (pos : ℚ) (se : StepEnv),
      ((passiveScanStep motorD pulseIdSig adStatusSig pos se).1.take 1
        = [Msg.mv motorD pos]) ∧
      (se.mvOk = true →
        (passiveScanStep motorD pulseIdSig adStatusSig pos se).1.take 2
          = [Msg.mv motorD pos, Msg.checkpoint])) := by
  refine ⟨?_, ?_, ?_, ?_⟩
  · intro dets motorD laserD powerSig pos se
    cases h : se.mvOk <;>
      simp [pulseSyncStep, pseq, emit, mvCmd, h]
  · intro dets motorD laserD repeats pos se
    cases h : se.mvOk <;>
      simp [multiScanStep, pseq, emit, mvCmd, h]
  · intro dets motorD laserD repeats pos se
    cases h : se.mvOk <;>
      simp [multiScanStepLaser, pseq, emit, mvCmd, h]
  · intro motorD pulseIdSig adStatusSig pos se
    refine ⟨?_, fun hok => ?_⟩
    · cases h : se.mvOk <;>
        simp [passiveScanStep, pseq, emit, mvCmd, h]
    · simp [passiveScanStep, pseq, emit, mvCmd, hok]

/-- Witness for `claim_C7_amended` at a concrete `passive_scan` step. -/
theorem claim_C7_amended_witness :
    ((⟨true, ⟨2, []⟩, ⟨0, []⟩⟩ : StepEnv).mvOk = true) ∧
    (passiveScanStep 1 5 4 0 ⟨true, ⟨2, []⟩, ⟨0, []⟩⟩).1.take 2
      = [Msg.mv 1 0, Msg.checkpoint] :=
  ⟨rfl, (claim_C7_amended.2.2.2 1 5 4 0 ⟨true, ⟨2, []⟩, ⟨0, []⟩⟩).2 rfl⟩

theorem mvPositions_append (l1 l2 : List Msg) :
    mvPositions (l1 ++ l2) = mvPositions l1 ++ mvPositions l2 :=
  List.filterMap_append _ _ _

theorem mvPositions_eq_nil {l : List Msg} (h : ∀ m ∈ l, isMv m = false) :
    mvPositions l = [] := by
  induction l with
  | nil => rfl
  | cons x xs ih =>
    have hx := h x (List.mem_cons_self x xs)
    have hxs := ih (fun m hm => h m (List.mem_cons_of_mem x hm))
    cases x <;> first
      | simpa [mvPositions, List.filterMap_cons] using hxs
      | exact absurd hx (by simp [isMv])

theorem mvPositions_map_stage (dets : List Nat) :
    mvPositions (dets.map Msg.stage) = [] :=
  mvPositions_eq_nil (fun m hm => by
    rcases List.mem_map.mp hm with ⟨d, _, rfl⟩; rfl)

theorem mvPositions_map_unstage (dets : List Nat) :
    mvPositions (dets.map Msg.unstage) = [] :=
  mvPositions_eq_nil (fun m hm => by
    rcases List.mem_map.mp hm with ⟨d, _, rfl⟩; rfl)

theorem mvPositions_pseq_nil {a b : PRes} (ha : mvPositions a.1 = [])
    (hb : mvPositions b.1 = []) : mvPositions (pseq a b).1 = [] := by
  rcases h : a.2 with _ | e
  · rw [pseq_of_none h]
    show mvPositions (a.1 ++ b.1) = []
    rw [mvPositions_append, ha, hb]
    rfl
  · rw [pseq_of_some h]
    exact ha

theorem mvPositions_wait (sig : Nat) (target : Int) (poll tmo : ℚ)
    (env : WaitEnv) :
    mvPositions (wait_for_value sig target poll tmo env).1 = [] :=
  mvPositions_eq_nil (fun m hm => by
    rcases wait_for_value_msgs _ m hm with rfl | ⟨v, rfl⟩ <;> rfl)

theorem mvPositions_repeatReads (devs : List Nat) (n : Nat) :
    mvPositions (repeatReads devs n).1 = [] :=
  mvPositions_eq_nil (fun m hm => by rw [mem_repeatReads hm]; rfl)

theorem pulseSyncStep_mvPositions (dets : List Nat)
    (motorD laserD powerSig : Nat) (pos : ℚ) (se : StepEnv) :
    mvPositions (pulseSyncStep dets motorD laserD powerSig pos se).1 = [pos] := by
  have hrest : mvPositions (pseq (wait_for_value powerSig 0 (1/100) 10 se.wA)
      (pseq (wait_for_value powerSig 1 (1/1000) 10 se.wB)
        (emit (Msg.triggerAndRead (dets ++ [motorD] ++ [laserD]))))).1 = [] :=
    mvPositions_pseq_nil (mvPositions_wait _ _ _ _ _)
      (mvPositions_pseq_nil (mvPositions_wait _ _ _ _ _) rfl)
  simp only [pulseSyncStep]
  rw [pseq_of_none (show (emit Msg.checkpoint).2 = none from rfl)]
  show mvPositions ((emit Msg.checkpoint).1 ++ _) = [pos]
  rw [mvPositions_append]
  cases h : se.mvOk
  · rw [pseq_of_some (show (mvCmd motorD pos false).2 = some PErr.motionFailure
      from rfl)]
    rfl
  · rw [pseq_of_none (show (mvCmd motorD pos true).2 = none from rfl)]
    show mvPositions [Msg.checkpoint] ++ mvPositions ((mvCmd motorD pos true).1 ++ _) = [pos]
    rw [mvPositions_append, mvCmd_trace, hrest]
    rfl

theorem multiScanStep_mvPositions (dets : List Nat) (motorD laserD : Nat)
    (repeats : Nat) (pos : ℚ) (se : StepEnv) :
    mvPositions (multiScanStep dets motorD laserD repeats pos se).1 = [pos] := by
  simp only [multiScanStep]
  rw [pseq_of_none (show (emit Msg.checkpoint).2 = none from rfl)]
  show mvPositions ((emit Msg.checkpoint).1 ++ _) = [pos]
  rw [mvPositions_append]
  cases h : se.mvOk
  · rw [pseq_of_some (show (mvCmd motorD pos false).2 = some PErr.motionFailure
      from rfl)]
    rfl
  · rw [pseq_of_none (show (mvCmd motorD pos true).2 = none from rfl)]
    show mvPositions [Msg.checkpoint] ++ mvPositions ((mvCmd motorD pos true).1 ++ _) = [pos]
    rw [mvPositions_append, mvCmd_trace, mvPositions_repeatReads]
    rfl

theorem multiScanStepLaser_mvPositions (dets : List Nat) (motorD laserD : Nat)
    (repeats : Nat) (pos : ℚ) (se : StepEnv) :
    mvPositions (multiScanStepLaser dets motorD laserD repeats pos se).1 = [pos] := by
  simp only [multiScanStepLaser]
  rw [pseq_of_none (show (emit Msg.checkpoint).2 = none from rfl)]
  show mvPositions ((emit Msg.checkpoint).1 ++ _) = [pos]
  rw [mvPositions_append]
  cases h : se.mvOk
  · rw [pseq_of_some (show (mvCmd motorD pos false).2 = some PErr.motionFailure
      from rfl)]
    rfl
  · rw [pseq_of_none (show (mvCmd motorD pos true).2 = none from rfl)]
    show mvPositions [Msg.checkpoint] ++ mvPositions ((mvCmd motorD pos true).1 ++ _) = [pos]
    rw [mvPositions_append, mvCmd_trace, mvPositions_repeatReads]
    rfl

theorem passiveScanStep_mvPositions (motorD pulseIdSig adStatusSig : Nat)
    (pos : ℚ) (se : StepEnv) :
    mvPositions (passiveScanStep motorD pulseIdSig adStatusSig pos se).1 = [pos] := by
  have hrest : mvPositions (pseq (emit Msg.checkpoint)
      (pseq (wait_for_value adStatusSig 2 (1/1000) 10 se.wA)
      (pseq (emit (Msg.triggerAndRead ([motorD] ++ [pulseIdSig])))
      (wait_for_value adStatusSig 0 (1/1000) 10 se.wB)))).1 = [] :=
    mvPositions_pseq_nil rfl (mvPositions_pseq_nil (mvPositions_wait _ _ _ _ _)
      (mvPositions_pseq_nil rfl (mvPositions_wait _ _ _ _ _)))
  simp only [passiveScanStep]
  cases h : se.mvOk
  · rw [pseq_of_some (show (mvCmd motorD pos false).2 = some PErr.motionFailure
      from rfl)]
    rfl
  · rw [pseq_of_none (show (mvCmd motorD pos true).2 = none from rfl)]
    show mvPositions ((mvCmd motorD pos true).1 ++ _) = [pos]
    rw [mvPositions_append, mvCmd_trace, hrest]
    rfl

theorem mvPositions_loopSteps (body : Nat → PRes) (p : Nat → ℚ)
    (hb : ∀ i, mvPositions (body i).1 = [p i]) :
    ∀ n : Nat, (loopSteps body n).2 = none →
      mvPositions (loopSteps body n).1 = (List.range n).map p := by
  intro n
  induction n with
  | zero => intro _; rfl
  | succ k ih =>
    intro h
    have h2 := pseq_snd_none.mp
      (show (pseq (loopSteps body k) (body k)).2 = none from h)
    rw [loopSteps, pseq_of_none h2.1]
    show mvPositions ((loopSteps body k).1 ++ (body k).1) = _
    rw [mvPositions_append, ih h2.1, hb k, List.range_succ]
    simp

/-- Claim C6 (confirmed): the step sequence `start + i * step_size`,
`step_size = (stop - start)/(steps - 1)`, has length `steps`, begins at
`start` and ends at `stop` (for `steps ≥ 2`); the concrete instance
`steps = 5, start = 0, stop = 180` gives `[0, 45, 90, 135, 180]`; and every
successful scan variant's motor-move trace visits exactly these positions in
increasing index order (`passive_scan` also emits its initial move to
`start` before the bracket, then visits the same sequence). -/
theorem claim_C6 :
    (∀ (start stop : ℚ) (steps : Nat), 2 ≤ steps →
      (scanPositions start stop steps).length = steps ∧
      (scanPositions start stop steps).head? = some start ∧
      (scanPositions start stop steps).getLast? = some stop) ∧
    (scanPositions 0 180 5 = [0, 45, 90, 135, 180]) ∧
    (∀ (dets : List Nat) (motorD laserD : Nat) (start stop : ℚ)
        (steps repeats : Nat) (env : Nat → StepEnv),
      (multi_scan dets motorD laserD start stop steps repeats env).2 = none →
        mvPositions (multi_scan dets motorD laserD start stop steps repeats
          env).1 = scanPositions start stop steps) ∧
    (∀ (dets : List Nat) (motorD laserD : Nat) (start stop : ℚ)
        (steps repeats : Nat) (env : Nat → StepEnv),
      (multi_scan_laser dets motorD laserD start stop steps repeats env).2
          = none →
        mvPositions (multi_scan_laser dets motorD laserD start stop steps
          repeats env).1 = scanPositions start stop steps) ∧
    (∀ (dets : List Nat) (motorD laserD powerSig : Nat) (start stop : ℚ)
        (steps : Nat) (env : Nat → StepEnv),
      (pulse_sync dets motorD laserD powerSig start stop steps env).2 = none →
        mvPositions (pulse_sync dets motorD laserD powerSig start stop steps
          env).1 = scanPositions start stop steps) ∧
    (∀ (dets : List Nat) (motorD : Nat) (start stop : ℚ) (steps : Nat)
        (adStatusSig pulseIdSig : Nat) (mv0Ok : Bool) (env : Nat → StepEnv),
      (passive_scan dets motorD start stop steps adStatusSig pulseIdSig mv0Ok
          env).2 = none →
        mvPositions (passive_scan dets motorD start stop steps adStatusSig
          pulseIdSig mv0Ok env).1 = start :: scanPositions start stop steps) := by
  refine ⟨?_, ?_, ?_, ?_, ?_, ?_⟩
  · intro start stop steps h2
    refine ⟨by rw [scanPositions, List.length_map, List.length_range], ?_, ?_⟩
    · obtain ⟨k, rfl⟩ : ∃ k, steps = k + 1 := ⟨steps - 1, by omega⟩
      simp [scanPositions, List.range_succ_eq_map]
    · obtain ⟨k, rfl⟩ : ∃ k, steps = k + 2 := ⟨steps - 2, by omega⟩
      simp only [scanPositions, List.range_succ, List.map_append, List.map_cons,
        List.map_nil, List.getLast?_concat]
      congr 1
      have hd : (((k + 2 : ℕ) : ℚ)) - 1 = (k : ℚ) + 1 := by push_cast; ring
      have hne : ((k : ℚ)) + 1 ≠ 0 := by positivity
      rw [hd]
      push_cast
      field_simp
  · have hr : List.range 5 = [0, 1, 2, 3, 4] := rfl
    rw [scanPositions, hr]
    norm_num
  · intro dets motorD laserD start stop steps repeats env hnone
    by_cases hs : steps = 1
    · simp only [multi_scan, if_pos hs] at hnone
      simp at hnone
    · have heq := multi_scan_eq dets motorD laserD start stop steps repeats env hs
      rw [heq] at hnone ⊢
      rcases hL : (multiScanLoop dets motorD laserD start stop steps repeats
          env).2 with _ | e
      · rw [(plan_shape _ _ _ _ _ rfl rfl rfl rfl).1 hL]
        show mvPositions ((stageAll dets).1 ++ (emit Msg.openRun).1 ++
          (multiScanLoop dets motorD laserD start stop steps repeats env).1 ++
          (emit Msg.closeRun).1 ++ (unstageAll dets).1) = _
        simp only [stageAll, emit, unstageAll, mvPositions_append, multiScanLoop]
        rw [mvPositions_map_stage, mvPositions_map_unstage,
          mvPositions_loopSteps
            (fun i => multiScanStep dets motorD laserD repeats
              (start + (i : ℚ) * ((stop - start) / ((steps : ℚ) - 1))) (env i))
            (fun i => start + (i : ℚ) * ((stop - start) / ((steps : ℚ) - 1)))
            (fun i => multiScanStep_mvPositions _ _ _ _ _ _) steps
            (by simpa [multiScanLoop] using hL)]
        simp [mvPositions, scanPositions]
      · rw [(plan_shape _ _ _ _ _ rfl rfl rfl rfl).2 e hL] at hnone
        simp at hnone
  · intro dets motorD laserD start stop steps repeats env hnone
    by_cases hs : steps = 1
    · simp only [multi_scan_laser, if_pos hs] at hnone
      simp at hnone
    · have heq := multi_scan_laser_eq dets motorD laserD start stop steps repeats
        env hs
      rw [heq] at hnone ⊢
      rcases hL : (multiScanLaserLoop dets motorD laserD start stop steps repeats
          env).2 with _ | e
      · rw [(plan_shape _ _ _ _ _ rfl rfl rfl rfl).1 hL]
        show mvPositions ((stageAll dets).1 ++ (emit Msg.openRun).1 ++
          (multiScanLaserLoop dets motorD laserD start stop steps repeats env).1 ++
          (emit Msg.closeRun).1 ++ (unstageAll dets).1) = _
        simp only [stageAll, emit, unstageAll, mvPositions_append,
          multiScanLaserLoop]
        rw [mvPositions_map_stage, mvPositions_map_unstage,
          mvPositions_loopSteps
            (fun i => multiScanStepLaser dets motorD laserD repeats
              (start + (i : ℚ) * ((stop - start) / ((steps : ℚ) - 1))) (env i))
            (fun i => start + (i : ℚ) * ((stop - start) / ((steps : ℚ) - 1)))
            (fun i => multiScanStepLaser_mvPositions _ _ _ _ _ _) steps
            (by simpa [multiScanLaserLoop] using hL)]
        simp [mvPositions, scanPositions]
      · rw [(plan_shape _ _ _ _ _ rfl rfl rfl rfl).2 e hL] at hnone
        simp at hnone
  · intro dets motorD laserD powerSig start stop steps env hnone
    by_cases hs : steps = 1
    · simp only [pulse_sync, if_pos hs] at hnone
      simp at hnone
    · have heq := pulse_sync_eq dets motorD laserD powerSig start stop steps env hs
      rw [heq] at hnone ⊢
      rcases hL : (pulseSyncLoop dets motorD laserD powerSig start stop steps
          env).2 with _ | e
      · rw [(plan_shape _ _ _ _ _ rfl rfl rfl rfl).1 hL]
        show mvPositions ((stageAll dets).1 ++ (emit Msg.openRun).1 ++
          (pulseSyncLoop dets motorD laserD powerSig start stop steps env).1 ++
          (emit Msg.closeRun).1 ++ (unstageAll dets).1) = _
        simp only [stageAll, emit, unstageAll, mvPositions_append, pulseSyncLoop]
        rw [mvPositions_map_stage, mvPositions_map_unstage,
          mvPositions_loopSteps
            (fun i => pulseSyncStep dets motorD laserD powerSig
              (start + (i : ℚ) * ((stop - start) / ((steps : ℚ) - 1))) (env i))
            (fun i => start + (i : ℚ) * ((stop - start) / ((steps : ℚ) - 1)))
            (fun i => pulseSyncStep_mvPositions _ _ _ _ _ _) steps
            (by simpa [pulseSyncLoop] using hL)]
        simp [mvPositions, scanPositions]
      · rw [(plan_shape _ _ _ _ _ rfl rfl rfl rfl).2 e hL] at hnone
        simp at hnone
  · intro dets motorD start stop steps adStatusSig pulseIdSig mv0Ok env hnone
    by_cases hs : steps = 1
    · simp only [passive_scan, if_pos hs] at hnone
      simp at hnone
    · have heq := passive_scan_eq dets motorD start stop steps adStatusSig
        pulseIdSig mv0Ok env hs
      rw [heq] at hnone ⊢
      have shape := plan_shape_passive (mvCmd motorD start mv0Ok)
        (emit Msg.openRun) (stageAll dets)
        (passiveScanLoop motorD pulseIdSig adStatusSig start stop steps env)
        (unstageAll dets) (emit Msg.closeRun) rfl rfl rfl rfl
      rcases hM : (mvCmd motorD start mv0Ok).2 with _ | e0
      · rcases hL : (passiveScanLoop motorD pulseIdSig adStatusSig start stop
            steps env).2 with _ | e
        · rw [shape.2.1 hM hL]
          show mvPositions ((mvCmd motorD start mv0Ok).1 ++ (emit Msg.openRun).1 ++
            (stageAll dets).1 ++
            (passiveScanLoop motorD pulseIdSig adStatusSig start stop steps env).1 ++
            (unstageAll dets).1 ++ (emit Msg.closeRun).1) = _
          simp only [stageAll, emit, unstageAll, mvPositions_append, mvCmd_trace,
            passiveScanLoop]
          rw [mvPositions_map_stage, mvPositions_map_unstage,
            mvPositions_loopSteps
              (fun i => passiveScanStep motorD pulseIdSig adStatusSig
                (start + (i : ℚ) * ((stop - start) / ((steps : ℚ) - 1))) (env i))
              (fun i => start + (i : ℚ) * ((stop - start) / ((steps : ℚ) - 1)))
              (fun i => passiveScanStep_mvPositions _ _ _ _ _) steps
              (by simpa [passiveScanLoop] using hL)]
          simp [mvPositions, scanPositions]
        · rw [shape.2.2 e hM hL] at hnone
          simp at hnone
      · rw [shape.1 e0 hM] at hnone
        rw [hM] at hnone
        simp at hnone

/-- Witness for `claim_C6` at `steps = 5, start = 0, stop = 180` and a
concrete successful `multi_scan` invocation. -/
theorem claim_C6_witness :
    ((2 : Nat) ≤ 5) ∧
    ((scanPositions (0 : ℚ) 180 5).length = 5 ∧
      (scanPositions (0 : ℚ) 180 5).head? = some 0 ∧
      (scanPositions (0 : ℚ) 180 5).getLast? = some 180) ∧
    ((multi_scan [0] 1 2 0 180 5 1 (fun _ => ⟨true, ⟨0, []⟩, ⟨0, []⟩⟩)).2
      = none) ∧
    mvPositions (multi_scan [0] 1 2 0 180 5 1
        (fun _ => ⟨true, ⟨0, []⟩, ⟨0, []⟩⟩)).1 = scanPositions 0 180 5 :=
  ⟨by norm_num, claim_C6.1 0 180 5 (by norm_num), by decide,
    claim_C6.2.2.1 [0] 1 2 0 180 5 1 _ (by decide)⟩

theorem wait_for_value_none_last {sig : Nat} {target : Int} {poll tmo : ℚ}
    (env : WaitEnv) (h : (wait_for_value sig target poll tmo env).2 = none) :
    (wait_for_value sig target poll tmo env).1.getLast?
      = some (Msg.readSig sig target) := by
  have h' : (waitLoop sig target poll tmo env.v0 env.rest).2 = none := h
  rcases waitLoop_none_last env.rest env.v0 h' with ⟨h0, heq⟩ | htl
  · show (Msg.readSig sig env.v0 :: (waitLoop sig target poll tmo env.v0
      env.rest).1).getLast? = _
    rw [h0, heq]
    rfl
  · show (Msg.readSig sig env.v0 :: (waitLoop sig target poll tmo env.v0
      env.rest).1).getLast? = _
    cases hx : (waitLoop sig target poll tmo env.v0 env.rest).1 with
    | nil => rw [hx] at htl; simp at htl
    | cons x xs =>
      rw [hx] at htl
      simpa [List.getLast?_cons_cons] using htl

/-- Claim C5 (confirmed): in every successful `pulse_sync` step, the motion
succeeds, then the wait for the laser power to read 0 runs to completion —
its final observation is necessarily a read of 0, regardless of the initial
power value (in particular when the power already reads 1 at step entry) —
and only then does the wait for power 1 run, followed by exactly one
`trigger_and_read` over `detectors ++ [motor] ++ [laser]`; no
trigger-and-read occurs during either wait phase. -/
theorem claim_C5 : ∀ (dets : List Nat) (motorD laserD powerSig : Nat)
    (pos : ℚ) (se : StepEnv),
    (pulseSyncStep dets motorD laserD powerSig pos se).2 = none →
      se.mvOk = true ∧
      (wait_for_value powerSig 0 (1/100) 10 se.wA).2 = none ∧
      (wait_for_value powerSig 1 (1/1000) 10 se.wB).2 = none ∧
      (pulseSyncStep dets motorD laserD powerSig pos se).1
        = [Msg.checkpoint, Msg.mv motorD pos] ++
          (wait_for_value powerSig 0 (1/100) 10 se.wA).1 ++
          (wait_for_value powerSig 1 (1/1000) 10 se.wB).1 ++
          [Msg.triggerAndRead (dets ++ [motorD] ++ [laserD])] ∧
      (wait_for_value powerSig 0 (1/100) 10 se.wA).1.getLast?
        = some (Msg.readSig powerSig 0) ∧
      ((wait_for_value powerSig 0 (1/100) 10 se.wA).1 ++
        (wait_for_value powerSig 1 (1/1000) 10 se.wB).1).count
          (Msg.triggerAndRead (dets ++ [motorD] ++ [laserD])) = 0 ∧
      (pulseSyncStep dets motorD laserD powerSig pos se).1.count
          (Msg.triggerAndRead (dets ++ [motorD] ++ [laserD])) = 1 := by
  intro dets motorD laserD powerSig pos se h
  simp only [pulseSyncStep] at h ⊢
  have h1 := pseq_snd_none.mp h
  have h2 := pseq_snd_none.mp h1.2
  have h3 := pseq_snd_none.mp h2.2
  have h4 := pseq_snd_none.mp h3.2
  have hmv : se.mvOk = true := by
    cases h' : se.mvOk
    · rw [h'] at h2
      exact absurd h2.1 (by simp [mvCmd])
    · rfl
  have hcA : (wait_for_value powerSig 0 (1/100) 10 se.wA).1.count
      (Msg.triggerAndRead (dets ++ [motorD] ++ [laserD])) = 0 := by
    refine List.count_eq_zero.mpr (fun hmem => ?_)
    rcases wait_for_value_msgs _ _ hmem with h' | ⟨v, h'⟩ <;> exact Msg.noConfusion h'
  have hcB : (wait_for_value powerSig 1 (1/1000) 10 se.wB).1.count
      (Msg.triggerAndRead (dets ++ [motorD] ++ [laserD])) = 0 := by
    refine List.count_eq_zero.mpr (fun hmem => ?_)
    rcases wait_for_value_msgs _ _ hmem with h' | ⟨v, h'⟩ <;> exact Msg.noConfusion h'
  have htr : (pseq (emit Msg.checkpoint)
      (pseq (mvCmd motorD pos se.mvOk)
      (pseq (wait_for_value powerSig 0 (1/100) 10 se.wA)
      (pseq (wait_for_value powerSig 1 (1/1000) 10 se.wB)
      (emit (Msg.triggerAndRead (dets ++ [motorD] ++ [laserD]))))))).1
      = [Msg.checkpoint, Msg.mv motorD pos] ++
        (wait_for_value powerSig 0 (1/100) 10 se.wA).1 ++
        (wait_for_value powerSig 1 (1/1000) 10 se.wB).1 ++
        [Msg.triggerAndRead (dets ++ [motorD] ++ [laserD])] := by
    rw [hmv]
    rw [pseq_of_none (show (emit Msg.checkpoint).2 = none from rfl),
      pseq_of_none (show (mvCmd motorD pos true).2 = none from rfl),
      pseq_of_none h3.1, pseq_of_none h4.1]
    show (emit Msg.checkpoint).1 ++ (mvCmd motorD pos true).1 ++ _ = _
    rw [mvCmd_trace]
    simp [emit]
  refine ⟨hmv, h3.1, h4.1, htr, wait_for_value_none_last _ h3.1, ?_, ?_⟩
  · rw [List.count_append, hcA, hcB]
  · rw [htr]
    simp only [List.count_append, hcA, hcB]
    simp

/-- Witness for `claim_C5` at a step whose laser power is pre-set to 1: the
wait-for-0 phase still completes (observing 0) before the wait-for-1 phase
runs. -/
theorem claim_C5_witness :
    ((pulseSyncStep [0] 1 2 3 0 ⟨true, ⟨1, [(false, 0)]⟩, ⟨1, []⟩⟩).2 = none) ∧
    ((⟨true, ⟨1, [(false, 0)]⟩, ⟨1, []⟩⟩ : StepEnv).mvOk = true ∧
      (wait_for_value 3 0 (1/100) 10 ⟨1, [(false, 0)]⟩).2 = none ∧
      (wait_for_value 3 1 (1/1000) 10 ⟨1, []⟩).2 = none ∧
      (pulseSyncStep [0] 1 2 3 0 ⟨true, ⟨1, [(false, 0)]⟩, ⟨1, []⟩⟩).1
        = [Msg.checkpoint, Msg.mv 1 0] ++
          (wait_for_value 3 0 (1/100) 10 ⟨1, [(false, 0)]⟩).1 ++
          (wait_for_value 3 1 (1/1000) 10 ⟨1, []⟩).1 ++
          [Msg.triggerAndRead ([0] ++ [1] ++ [2])] ∧
      (wait_for_value 3 0 (1/100) 10 ⟨1, [(false, 0)]⟩).1.getLast?
        = some (Msg.readSig 3 0) ∧
      ((wait_for_value 3 0 (1/100) 10 ⟨1, [(false, 0)]⟩).1 ++
        (wait_for_value 3 1 (1/1000) 10 ⟨1, []⟩).1).count
          (Msg.triggerAndRead ([0] ++ [1] ++ [2])) = 0 ∧
      (pulseSyncStep [0] 1 2 3 0 ⟨true, ⟨1, [(false, 0)]⟩, ⟨1, []⟩⟩).1.count
          (Msg.triggerAndRead ([0] ++ [1] ++ [2])) = 1) :=
  ⟨by decide, claim_C5 [0] 1 2 3 0 ⟨true, ⟨1, [(false, 0)]⟩, ⟨1, []⟩⟩ (by decide)⟩

theorem waitLoop_eq_of_target {sig : Nat} {target : Int} {poll tmo : ℚ}
    {cur : Int} (env : List (Bool × Int)) (h : cur = target) :
    waitLoop sig target poll tmo cur env = ([], none) := by
  cases env with
  | nil => rw [waitLoop, if_pos h]
  | cons p rest =>
    obtain ⟨late, v⟩ := p
    rw [waitLoop, if_pos h]

/-- Claim C4 (counterexample): on a run that times out during the first poll
cycle, the source's `wait_for_value` raises directly after the sleep WITHOUT
the final re-read that the claimed algorithm ("suspend, re-read, and only
then fail") performs: the two traces differ (the claimed one ends with an
extra `readSig`). -/
theorem claim_C4_counterexample :
    ((wait_for_value 3 1 1 10 ⟨0, [(true, 1)]⟩).1
      = [Msg.readSig 3 0, Msg.sleepFor 1]) ∧
    ((wait_for_value_claimed 3 1 1 10 ⟨0, [(true, 1)]⟩).1
      = [Msg.readSig 3 0, Msg.sleepFor 1, Msg.readSig 3 1]) ∧
    ((wait_for_value 3 1 1 10 ⟨0, [(true, 1)]⟩).2
      = some (PErr.timeoutErr 3 1 10)) ∧
    ((wait_for_value_claimed 3 1 1 10 ⟨0, [(true, 1)]⟩).2
      = some (PErr.timeoutErr 3 1 10)) ∧
    ((wait_for_value 3 1 1 10 ⟨0, [(true, 1)]⟩).1
      ≠ (wait_for_value_claimed 3 1 1 10 ⟨0, [(true, 1)]⟩).1) := by
  decide

/-- Claim C4 as amended: `wait_for_value` computes the deadline, reads the
signal once, and returns immediately (with zero sleeps) if the value already
equals the target; otherwise each poll cycle sleeps, then fails with a
Timeout naming the signal, target and timeout if now exceeds the deadline —
WITHOUT a further read — and only otherwise re-reads; on a timeout the trace
ends with the sleep, on success it ends with the read of the target value,
and the call never writes to the signal. -/
theorem claim_C4_amended : ∀ (sig : Nat) (target : Int) (poll tmo : ℚ)
    (env : WaitEnv),
    (env.v0 = target →
      wait_for_value sig target poll tmo env
        = ([Msg.readSig sig env.v0], none)) ∧
    (∀ m ∈ (wait_for_value sig target poll tmo env).1, ∀ s v,
      m ≠ Msg.writeSig s v) ∧
    ((wait_for_value sig target poll tmo env).2
        = some (PErr.timeoutErr sig target tmo) →
      (wait_for_value sig target poll tmo env).1.getLast?
        = some (Msg.sleepFor poll)) ∧
    (∀ e, (wait_for_value sig target poll tmo env).2 = some e →
      e = PErr.timeoutErr sig target tmo ∨ e = PErr.stuck) ∧
    ((wait_for_value sig target poll tmo env).2 = none →
      (wait_for_value sig target poll tmo env).1.getLast?
        = some (Msg.readSig sig target)) := by
  intro sig target poll tmo env
  refine ⟨?_, ?_, ?_, ?_, wait_for_value_none_last env⟩
  · intro hv
    show (Msg.readSig sig env.v0 :: (waitLoop sig target poll tmo env.v0
        env.rest).1, (waitLoop sig target poll tmo env.v0 env.rest).2) = _
    rw [waitLoop_eq_of_target env.rest hv]
  · intro m hm s v
    rcases wait_for_value_msgs _ m hm with h' | ⟨w, h'⟩ <;>
      (subst h'; exact fun hc => Msg.noConfusion hc)
  · intro he
    have he' : (waitLoop sig target poll tmo env.v0 env.rest).2
        = some (PErr.timeoutErr sig target tmo) := he
    have htl := waitLoop_timeout_last env.rest env.v0 he'
    show (Msg.readSig sig env.v0 :: (waitLoop sig target poll tmo env.v0
        env.rest).1).getLast? = _
    cases hx : (waitLoop sig target poll tmo env.v0 env.rest).1 with
    | nil => rw [hx] at htl; simp at htl
    | cons x xs =>
      rw [hx] at htl
      simpa [List.getLast?_cons_cons] using htl
  · intro e he
    exact waitLoop_err_shape env.rest env.v0 e he

/-- Witness for `claim_C4_amended`: a call whose signal already reads the
target returns immediately after the single read. -/
theorem claim_C4_amended_witness :
    ((⟨1, []⟩ : WaitEnv).v0 = 1) ∧
    wait_for_value 3 1 1 10 ⟨1, []⟩ = ([Msg.readSig 3 1], none) :=
  ⟨rfl, (claim_C4_amended 3 1 1 10 ⟨1, []⟩).1 rfl⟩

theorem laser_sid_inv_step (s : EPACLaserState) (e : LEvent)
    (h : (s.resolved ++ s.pending).map LaserStatus.sid = List.range s.created) :
    ((lstep s e).resolved ++ (lstep s e).pending).map LaserStatus.sid
      = List.range (lstep s e).created := by
  cases e with
  | triggerEv =>
    show ((s.resolved ++ (s.pending ++
      [(⟨s.created, s.now, 2, s.pulse_id_delay⟩ : LaserStatus)])).map
        LaserStatus.sid)
      = List.range (s.created + 1)
    rw [← List.append_assoc, List.map_append, h, List.range_succ]
    rfl
  | pulseEv =>
    show ((s.resolved ++ s.pending) ++ []).map LaserStatus.sid
      = List.range s.created
    simpa using h
  | tickEv dt => exact h

theorem laser_sid_inv_aux : ∀ (t : List LEvent) (s : EPACLaserState),
    (s.resolved ++ s.pending).map LaserStatus.sid = List.range s.created →
    ((t.foldl lstep s).resolved ++ (t.foldl lstep s).pending).map
        LaserStatus.sid
      = List.range (t.foldl lstep s).created := by
  intro t
  induction t with
  | nil => intro s h; exact h
  | cons e r ih => intro s h; exact ih _ (laser_sid_inv_step s e h)

theorem laser_sid_inv (d : ℚ) (t : List LEvent) :
    ((runL d t).resolved ++ (runL d t).pending).map LaserStatus.sid
      = List.range (runL d t).created :=
  laser_sid_inv_aux t (initL d) rfl

theorem pending_after_aux : ∀ (t : List LEvent) (s : EPACLaserState),
    LEvent.pulseEv ∉ t →
    ((t.foldl lstep s).pending).map LaserStatus.sid
      = s.pending.map LaserStatus.sid ++
        List.range' s.created (triggerCount t) ∧
    (t.foldl lstep s).created = s.created + triggerCount t := by
  intro t
  induction t with
  | nil => intro s _; simp [triggerCount]
  | cons e r ih =>
    intro s h
    have hne : e ≠ LEvent.pulseEv := fun hc => h (by simp [hc])
    have hr : LEvent.pulseEv ∉ r := fun hc => h (List.mem_cons_of_mem _ hc)
    cases e with
    | pulseEv => exact absurd rfl hne
    | triggerEv =>
      have hih := ih ((EPACLaser.trigger s).2) hr
      rw [List.foldl_cons]
      refine ⟨?_, ?_⟩
      · rw [show lstep s LEvent.triggerEv = (EPACLaser.trigger s).2 from rfl,
          hih.1]
        show (s.pending ++
            [(⟨s.created, s.now, 2, s.pulse_id_delay⟩ : LaserStatus)]).map
          LaserStatus.sid ++ List.range' (s.created + 1) (triggerCount r) = _
        rw [List.map_append, List.append_assoc]
        congr 1
      · rw [show lstep s LEvent.triggerEv = (EPACLaser.trigger s).2 from rfl,
          hih.2]
        show s.created + 1 + triggerCount r = s.created + (triggerCount r + 1)
        omega
    | tickEv dt =>
      have hih := ih ({s with now := s.now + dt}) hr
      rw [List.foldl_cons]
      exact ⟨hih.1, hih.2⟩

/-- Claim C8 (confirmed): `EPACLaser.trigger` creates a status with timeout
2.0 and settle delay equal to the device's `pulse_id_delay`, appends it to
the pending registry, and returns immediately (clock and resolution log
untouched); the passage of time alone never changes the registry or resolves
anything — timeout enforcement lives in the returned status, not the
broker. -/
theorem claim_C8 : ∀ s : EPACLaserState,
    (EPACLaser.trigger s).1.timeout = 2 ∧
    (EPACLaser.trigger s).1.settle = s.pulse_id_delay ∧
    (EPACLaser.trigger s).2.pending = s.pending ++ [(EPACLaser.trigger s).1] ∧
    (EPACLaser.trigger s).2.resolved = s.resolved ∧
    (EPACLaser.trigger s).2.now = s.now ∧
    (∀ dt : ℚ, (lstep s (LEvent.tickEv dt)).pending = s.pending ∧
      (lstep s (LEvent.tickEv dt)).resolved = s.resolved) :=
  fun s => ⟨rfl, rfl, rfl, rfl, rfl, fun dt => ⟨rfl, rfl⟩⟩

/-- Claim C2 (confirmed): a pulse-id callback drains the whole registry —
afterwards the registry is empty and exactly the statuses that were pending
are appended to the resolution log; at every instant the resolved and
pending status ids together enumerate `range created` (each status resolved
at most once, none lost); and statuses registered after the callback's swap
(with no further callback) are exactly the new ones, disjoint from the
drained batch, still pending. -/
theorem claim_C2 :
    (∀ (d : ℚ) (t : List LEvent),
      (runL d (t ++ [LEvent.pulseEv])).pending = [] ∧
      (runL d (t ++ [LEvent.pulseEv])).resolved
        = (runL d t).resolved ++ (runL d t).pending) ∧
    (∀ (d : ℚ) (t : List LEvent),
      ((runL d t).resolved ++ (runL d t).pending).map LaserStatus.sid
        = List.range (runL d t).created) ∧
    (∀ (d : ℚ) (t t2 : List LEvent), LEvent.pulseEv ∉ t2 →
      ((runL d (t ++ LEvent.pulseEv :: t2)).pending).map LaserStatus.sid
        = List.range' (runL d t).created (triggerCount t2) ∧
      ∀ x ∈ ((runL d (t ++ LEvent.pulseEv :: t2)).pending).map LaserStatus.sid,
        x ∉ ((runL d t).pending).map LaserStatus.sid) := by
  refine ⟨?_, laser_sid_inv, ?_⟩
  · intro d t
    constructor <;>
      simp [runL, List.foldl_append, lstep, EPACLaser.pulse_id_cb]
  · intro d t t2 h2
    have hstep : runL d (t ++ LEvent.pulseEv :: t2)
        = t2.foldl lstep (lstep (runL d t) LEvent.pulseEv) := by
      simp [runL, List.foldl_append]
    have hmain := pending_after_aux t2 (lstep (runL d t) LEvent.pulseEv) h2
    have hcb : (lstep (runL d t) LEvent.pulseEv).pending = [] := rfl
    have hcr : (lstep (runL d t) LEvent.pulseEv).created = (runL d t).created :=
      rfl
    refine ⟨?_, ?_⟩
    · rw [hstep, hmain.1, hcb, hcr]
      rfl
    · intro x hx hmem
      rw [hstep, hmain.1, hcb, hcr] at hx
      have hx' : (runL d t).created ≤ x := by
        have := List.mem_range'_1.mp (by simpa using hx)
        exact this.1
      have hsub : x ∈ ((runL d t).resolved ++ (runL d t).pending).map
          LaserStatus.sid := by
        rw [List.map_append]
        exact List.mem_append.mpr (Or.inr hmem)
      rw [laser_sid_inv d t] at hsub
      have := List.mem_range.mp hsub
      omega

/-- Witness for `claim_C2`: one trigger, one pulse, one later trigger — the
later status is pending with a fresh id, not among the drained batch. -/
theorem claim_C2_witness :
    (LEvent.pulseEv ∉ ([LEvent.triggerEv] : List LEvent)) ∧
    (((runL 0 ([LEvent.triggerEv] ++ LEvent.pulseEv ::
        [LEvent.triggerEv])).pending).map LaserStatus.sid
      = List.range' (runL 0 [LEvent.triggerEv]).created
          (triggerCount [LEvent.triggerEv]) ∧
      ∀ x ∈ ((runL 0 ([LEvent.triggerEv] ++ LEvent.pulseEv ::
          [LEvent.triggerEv])).pending).map LaserStatus.sid,
        x ∉ ((runL 0 [LEvent.triggerEv]).pending).map LaserStatus.sid) :=
  ⟨by decide, claim_C2.2.2 0 [LEvent.triggerEv] [LEvent.triggerEv] (by decide)⟩

/-- Claim C9 (counterexample): trigger at time 0 (status deadline
`ctime + timeout = 2`), let time advance to 3 with no pulse: the expired
status is STILL in the registry (nothing in the source removes it on
timeout), and the next pulse callback drains — and calls `set_finished` on —
that long-expired status.  This refutes "at any instant the registry holds
only completions that are unresolved and before their deadline". -/
theorem claim_C9_counterexample :
    (runL 0 [LEvent.triggerEv, LEvent.tickEv 3]).pending
      = [⟨0, 0, 2, 0⟩] ∧
    (runL 0 [LEvent.triggerEv, LEvent.tickEv 3]).now = 3 ∧
    ((0 : ℚ) + 2 < 3) ∧
    (runL 0 [LEvent.triggerEv, LEvent.tickEv 3, LEvent.pulseEv]).resolved
      = [⟨0, 0, 2, 0⟩] := by
  refine ⟨?_, ?_, by norm_num, ?_⟩ <;>
    simp [runL, lstep, EPACLaser.trigger, EPACLaser.pulse_id_cb, initL]

/-- Claim C9 as amended: a completion is removed from the broker's registry
ONLY by a pulse-delivery callback's drain — no other event (trigger, passage
of time, timeout expiry) removes entries — and the drain unconditionally
resolves everything registered, expired or not. -/
theorem claim_C9_amended :
    (∀ (s : EPACLaserState) (e : LEvent), e ≠ LEvent.pulseEv →
      ∃ l : List LaserStatus, (lstep s e).pending = s.pending ++ l) ∧
    (∀ s : EPACLaserState,
      (EPACLaser.pulse_id_cb s).pending = [] ∧
      (EPACLaser.pulse_id_cb s).resolved = s.resolved ++ s.pending) := by
  constructor
  · intro s e he
    cases e with
    | triggerEv => exact ⟨[(EPACLaser.trigger s).1], rfl⟩
    | pulseEv => exact absurd rfl he
    | tickEv dt => exact ⟨[], by simp [lstep]⟩
  · intro s
    exact ⟨rfl, rfl⟩

/-- Witness for `claim_C9_amended` at a concrete non-pulse event. -/
theorem claim_C9_amended_witness :
    (LEvent.tickEv 1 ≠ LEvent.pulseEv) ∧
    ∃ l : List LaserStatus,
      (lstep (initL 0) (LEvent.tickEv 1)).pending = (initL 0).pending ++ l :=
  ⟨by decide, claim_C9_amended.1 (initL 0) (LEvent.tickEv 1) (by decide)⟩
